import Mathlib

/-!
Shallow embedding of the Cats vs. Homework simulation core
(src/managers.py, src/cats.py, src/contraptions.py).

The GUI layer (tkinter frames, buttons, images, text labels) is pure display
and is not modelled; every other piece of game state and game logic is
translated line by line from the source.  Python integers are modelled as
`Int` where the source can drive them negative (attention, rest time,
uses counters, batteries) and as `Nat` for the monotone round counter.
Assertion failures and attribute errors raised by the source are modelled
by an explicit error component: every stateful operation returns
`GState × Option Err`, keeping the partial state at the point of the error,
exactly as the Python heap would.
-/

namespace CatsHomework

/-- Number of tiles in a lane (managers.py `LANE_WIDTH`). -/
def LANE_WIDTH : Nat := 8

/-- Starting batteries (managers.py `STARTING_BATTERIES`). -/
def STARTING_BATTERIES : Int := 8

/-- Rounds until the game is won (managers.py `WIN_ROUND`). -/
def WIN_ROUND : Nat := 40

/-- A board position: `row` is the lane index, `col` the column.
The lane entrance (where cats appear, managers.py `Board._lanes`) is
column `LANE_WIDTH - 1`; the goal edge (exit `None`) is column 0. -/
structure Pos where
  row : Nat
  col : Nat
deriving DecidableEq, Repr

/-- `Tile.exit()`: the next tile toward the goal (one column down). -/
def tileExit (p : Pos) : Option Pos :=
  if p.col = 0 then none else some ⟨p.row, p.col - 1⟩

/-- `Tile.entrance()`: the previous tile in the lane (one column up). -/
def tileEntrance (p : Pos) : Option Pos :=
  if p.col + 1 < LANE_WIDTH then some ⟨p.row, p.col + 1⟩ else none

/-- `Tile.above()`: same column, previous lane. -/
def tileAbove (p : Pos) : Option Pos :=
  if p.row = 0 then none else some ⟨p.row - 1, p.col⟩

/-- `Tile.below()`: same column, next lane (bounded by the lane count). -/
def tileBelow (laneCount : Nat) (p : Pos) : Option Pos :=
  if p.row + 1 < laneCount then some ⟨p.row + 1, p.col⟩ else none

/-- Identity of an actor: cats, contraptions and colorful balls are kept in
three creation-ordered lists, and an actor is named by its list and index. -/
inductive ActorId where
  | cat (i : Nat)
  | contraption (i : Nat)
  | ball (i : Nat)
deriving DecidableEq, Repr

/-- The three cat classes of cats.py. -/
inductive CatKind where
  | tabby
  | calico
  | kitten
deriving DecidableEq, Repr

/-- The contraption classes of contraptions.py. -/
inductive ContraptionKind where
  | laser
  | snack
  | charger
  | thrower
  | tripleLaser
  | ballThrower
  | heater
deriving DecidableEq, Repr

/-- Errors raised by the source: failed `assert` statements, attribute
access on `None`, and `list.remove` on a missing element. -/
inductive Err where
  | assertionError
  | attributeError
  | valueError
deriving DecidableEq, Repr

/-- State of one `Cat` object (cats.py). -/
structure CatState where
  kind : CatKind
  startingAttention : Int
  attention : Int
  neededRestTime : Int
  restTime : Int
  tile : Option Pos
deriving DecidableEq, Repr

/-- State of one `Contraption` object (contraptions.py). `uses` is only
meaningful for the snack dispenser, `ready` only for the battery charger. -/
structure ContraptionState where
  kind : ContraptionKind
  cost : Int
  uses : Int
  ready : Bool
  tile : Option Pos
deriving DecidableEq, Repr

/-- State of one `ColorfulBall` object. -/
structure BallState where
  tile : Option Pos
deriving DecidableEq, Repr

/-- The whole game state: board occupancy plus the `GameManager` singleton's
fields.  `loseCalls` is a ghost counter of `lose_game` invocations (it has no
effect on behaviour); `rng` is an oracle stream supplying the results of
`random.randint`, consumed one value per call. -/
structure GState where
  laneCount : Nat
  occ : Pos → Option ActorId
  cats : List CatState
  contraptions : List ContraptionState
  registry : List Nat
  balls : List BallState
  batteries : Int
  rounds : Nat
  gameEnded : Bool
  destroyed : Bool
  loseCalls : Nat
  rng : List Nat

/-- Result of a stateful operation: the state reached, and the error raised
if one was (the state component is the heap at the moment of the raise). -/
abbrev StepRes := GState × Option Err

/-- Sequencing that stops at the first error, keeping its state. -/
def andThen (r : StepRes) (f : GState → StepRes) : StepRes :=
  match r with
  | (s, some e) => (s, some e)
  | (s, none) => f s

/-- Pop the next oracle value for `random.randint` (0 when exhausted). -/
def takeRand (s : GState) : Nat × GState :=
  match s.rng with
  | [] => (0, s)
  | k :: rest => (k, { s with rng := rest })

/-- Update the occupant function at one position. -/
def setOcc (s : GState) (p : Pos) (a : Option ActorId) : GState :=
  { s with occ := Function.update s.occ p a }

/-- Replace cat `i`'s record by `f` of it (no-op when out of range). -/
def modifyCat (s : GState) (i : Nat) (f : CatState → CatState) : GState :=
  match s.cats.get? i with
  | some c => { s with cats := s.cats.set i (f c) }
  | none => s

/-- Replace contraption `i`'s record by `f` of it (no-op when out of range). -/
def modifyContraption (s : GState) (i : Nat) (f : ContraptionState → ContraptionState) : GState :=
  match s.contraptions.get? i with
  | some c => { s with contraptions := s.contraptions.set i (f c) }
  | none => s

/-- Replace ball `i`'s record by `f` of it (no-op when out of range). -/
def modifyBall (s : GState) (i : Nat) (f : BallState → BallState) : GState :=
  match s.balls.get? i with
  | some b => { s with balls := s.balls.set i (f b) }
  | none => s

/-- An actor's `_tile` field (`none` for unknown ids). -/
def actorTile (s : GState) : ActorId → Option Pos
  | .cat i => match s.cats.get? i with
    | some c => c.tile
    | none => none
  | .contraption i => match s.contraptions.get? i with
    | some c => c.tile
    | none => none
  | .ball i => match s.balls.get? i with
    | some b => b.tile
    | none => none

/-- Set an actor's `_tile` field. -/
def setActorTile (s : GState) (a : ActorId) (t : Option Pos) : GState :=
  match a with
  | .cat i => modifyCat s i (fun c => { c with tile := t })
  | .contraption i => modifyContraption s i (fun c => { c with tile := t })
  | .ball i => modifyBall s i (fun b => { b with tile := t })

/-- `Tile.clear_actor()` — asserts the tile is non-empty, then empties it. -/
def clearActor (s : GState) (p : Pos) : StepRes :=
  match s.occ p with
  | none => (s, some .assertionError)
  | some _ => (setOcc s p none, none)

/-- `Tile.set_actor(actor)` — asserts the tile is empty, then fills it. -/
def setActor (s : GState) (p : Pos) (a : ActorId) : StepRes :=
  match s.occ p with
  | some _ => (s, some .assertionError)
  | none => (setOcc s p (some a), none)

/-- `Actor.teleport(tile)`: clear the old tile if on board, set the `_tile`
field, then claim the target tile (in exactly this source order). -/
def teleport (s : GState) (a : ActorId) (p : Pos) : StepRes :=
  andThen
    (match actorTile s a with
     | some old => clearActor s old
     | none => (s, none))
    (fun s1 => setActor (setActorTile s1 a (some p)) p a)

/-- `Actor.remove_from_board()`: `self._tile.clear_actor()` (an
`AttributeError` when `_tile` is `None`), then `self._tile = None`. -/
def removeFromBoard (s : GState) (a : ActorId) : StepRes :=
  match actorTile s a with
  | none => (s, some .attributeError)
  | some p =>
    andThen (clearActor s p) (fun s1 => (setActorTile s1 a none, none))

/-- `GameManager.add_batteries` — asserts a non-negative amount. -/
def addBatteries (s : GState) (amount : Int) : StepRes :=
  if amount < 0 then (s, some .assertionError)
  else ({ s with batteries := s.batteries + amount }, none)

/-- `GameManager.spend_batteries` — asserts affordability. -/
def spendBatteries (s : GState) (amount : Int) : StepRes :=
  if amount < 0 ∨ s.batteries < amount then (s, some .assertionError)
  else ({ s with batteries := s.batteries - amount }, none)

/-- `GameManager.destroy()` — asserts the singleton is initialized, marks the
game ended and tears the singleton down. -/
def destroyGM (s : GState) : StepRes :=
  if s.destroyed then (s, some .assertionError)
  else ({ s with gameEnded := true, destroyed := true }, none)

/-- `GameManager.lose_game()` (the ghost counter records the invocation). -/
def loseGame (s : GState) : StepRes :=
  destroyGM { s with loseCalls := s.loseCalls + 1 }

/-- `GameManager.win_game()`. -/
def winGame (s : GState) : StepRes :=
  destroyGM s

/-- `GameManager.add_contraption` — appends to the registry. -/
def addContraption (s : GState) (i : Nat) : GState :=
  { s with registry := s.registry ++ [i] }

/-- `GameManager.remove_contraption` — `list.remove`, a `ValueError` when
the contraption is not registered. -/
def removeContraption (s : GState) (i : Nat) : StepRes :=
  if s.registry.contains i then ({ s with registry := s.registry.erase i }, none)
  else (s, some .valueError)

/-- `GameManager.increment_round`: bump the counter, win at `WIN_ROUND`. -/
def incrementRound (s : GState) : StepRes :=
  let s1 := { s with rounds := s.rounds + 1 }
  if WIN_ROUND ≤ s1.rounds then winGame s1 else (s1, none)

/-- `Contraption.interact()` (the base behaviour): `self.tile().clear_actor()`
(where `tile()` asserts the contraption is on board), `self._tile = None`,
then deregistration. -/
def baseInteract (s : GState) (i : Nat) : StepRes :=
  match actorTile s (.contraption i) with
  | none => (s, some .assertionError)
  | some p =>
    andThen (clearActor s p) (fun s1 =>
      removeContraption (setActorTile s1 (.contraption i) none) i)

/-- `interact()` with dynamic dispatch: `SnackDispenser.interact` decrements
its `_uses` counter and only falls through to the base removal at zero. -/
def contraptionInteract (s : GState) (i : Nat) : StepRes :=
  match s.contraptions.get? i with
  | none => (s, some .assertionError)
  | some c =>
    match c.kind with
    | .snack =>
      let s1 := modifyContraption s i (fun d => { d with uses := d.uses - 1 })
      if c.uses - 1 = 0 then baseInteract s1 i else (s1, none)
    | _ => baseInteract s i

/-- `Cat.distract(amount)` (the base behaviour): assert the amount is
non-negative, subtract it; at zero or below, floor to zero, arm the rest
timer and leave the board. -/
def baseDistract (s : GState) (ci : Nat) (amount : Int) : StepRes :=
  if amount < 0 then (s, some .assertionError)
  else
    match s.cats.get? ci with
    | none => (s, some .assertionError)
    | some c =>
      if c.attention - amount ≤ 0 then
        removeFromBoard
          (modifyCat s ci (fun d =>
            { d with attention := 0, restTime := d.neededRestTime }))
          (.cat ci)
      else
        (modifyCat s ci (fun d => { d with attention := d.attention - amount }), none)

/-- `distract` with dynamic dispatch: `Calico.distract` additionally dodges
one lane up when it survives and the tile above is empty. -/
def catDistract (s : GState) (ci : Nat) (amount : Int) : StepRes :=
  match s.cats.get? ci with
  | none => (s, some .assertionError)
  | some c =>
    match c.kind with
    | .calico =>
      andThen (baseDistract s ci amount) (fun s1 =>
        match actorTile s1 (.cat ci) with
        | none => (s1, none)
        | some p =>
          match tileAbove p with
          | none => (s1, none)
          | some q => if s1.occ q = none then teleport s1 (.cat ci) q else (s1, none))
    | _ => baseDistract s ci amount

/-- The scanning idiom `t = self._tile; for j in range(i): if t is None:
break; t = step(t)` from `Cat._check_space_heater`. -/
def chain (step : Pos → Option Pos) : Option Pos → Nat → Option Pos
  | t, 0 => t
  | none, _ + 1 => none
  | some p, n + 1 => chain step (step p) n

/-- `t and isinstance(t.actor(), SpaceHeater)`. -/
def isHeaterAt (s : GState) : Option Pos → Bool
  | none => false
  | some p =>
    match s.occ p with
    | some (.contraption i) =>
      match s.contraptions.get? i with
      | some c => c.kind = .heater
      | none => false
    | _ => false

/-- `Cat._check_space_heater()`, translated branch for branch: two entrance
steps, two exit steps, then the above block and the below block, each check
distracting by 1 and returning on the first heater found.  The above/below
blocks dereference `self._tile` without a `None` guard, so a cat that was
removed earlier in the same move raises an `AttributeError` there.
This helper is the `self._tile.below()` block of the source function. -/
def heaterBelowBlock (s : GState) (ci : Nat) (p : Pos) : StepRes :=
  match tileBelow s.laneCount p with
  | some bp =>
    if isHeaterAt s (some bp) then catDistract s ci 1
    else if isHeaterAt s (tileEntrance bp) then catDistract s ci 1
    else if isHeaterAt s (tileExit bp) then catDistract s ci 1
    else (s, none)
  | none => (s, none)

/-- `Cat._check_space_heater()` itself: two entrance steps, two exit steps,
then the above block and the below block, in source order, each check
distracting by 1 and returning on the first heater found. -/
def catCheckSpaceHeater (s : GState) (ci : Nat) : StepRes :=
  match s.cats.get? ci with
  | none => (s, some .assertionError)
  | some c =>
    if isHeaterAt s (chain tileEntrance c.tile 1) then catDistract s ci 1
    else if isHeaterAt s (chain tileEntrance c.tile 2) then catDistract s ci 1
    else if isHeaterAt s (chain tileExit c.tile 1) then catDistract s ci 1
    else if isHeaterAt s (chain tileExit c.tile 2) then catDistract s ci 1
    else
      match c.tile with
      | none => (s, some .attributeError)
      | some p =>
        match tileAbove p with
        | some ap =>
          if isHeaterAt s (some ap) then catDistract s ci 1
          else if isHeaterAt s (tileEntrance ap) then catDistract s ci 1
          else if isHeaterAt s (tileExit ap) then catDistract s ci 1
          else heaterBelowBlock s ci p
        | none => heaterBelowBlock s ci p

/-- `Cat.move()`: goal check (game loss), colorful-ball pickup, move to an
empty tile, contraption interaction, or blocked by another cat — in exactly
that source order.  The loss branch calls `GameManager.manager()`, whose
`is_initialized` assertion fails when the singleton was already destroyed. -/
def catMove (s : GState) (ci : Nat) : StepRes :=
  match s.cats.get? ci with
  | none => (s, some .assertionError)
  | some c =>
    match c.tile with
    | none => (s, some .assertionError)
    | some p =>
      match tileExit p with
      | none =>
        if s.destroyed then (s, some .assertionError) else loseGame s
      | some nxt =>
        match s.occ nxt with
        | some (.ball _) =>
          andThen (clearActor s nxt) (fun s1 =>
            andThen (teleport s1 (.cat ci) nxt) (fun s2 =>
              andThen (catDistract s2 ci 1) (fun s3 =>
                catCheckSpaceHeater s3 ci)))
        | none =>
          andThen (teleport s (.cat ci) nxt) (fun s1 =>
            catCheckSpaceHeater s1 ci)
        | some (.contraption i) => contraptionInteract s i
        | some (.cat _) => (s, none)

/-- The entrance tile of lane `i` (`Board.get_lane_entrance`): the lane's
head is the last tile constructed, at column `LANE_WIDTH - 1`. -/
def laneEntrance (i : Nat) : Pos := ⟨i, LANE_WIDTH - 1⟩

/-- `Cat.rest()`: count the timer down; at zero, collect the empty lane
entrances, re-arm for one round if there are none, otherwise respawn with
full attention on the oracle-chosen empty lane. -/
def catRest (s : GState) (ci : Nat) : StepRes :=
  match s.cats.get? ci with
  | none => (s, some .assertionError)
  | some c =>
    let s1 := modifyCat s ci (fun d => { d with restTime := d.restTime - 1 })
    if c.restTime - 1 = 0 then
      if s1.destroyed then (s1, some .assertionError)
      else
        let lanes := (List.range s1.laneCount).filterMap (fun i =>
          if s1.occ (laneEntrance i) = none then some (laneEntrance i) else none)
        match lanes with
        | [] => (modifyCat s1 ci (fun d => { d with restTime := 1 }), none)
        | _ :: _ =>
          let kr := takeRand s1
          let q := lanes.getD (kr.1 % lanes.length) ⟨0, 0⟩
          let s3 := modifyCat kr.2 ci (fun d => { d with attention := d.startingAttention })
          teleport s3 (.cat ci) q
    else (s1, none)

/-- `Cat.end_round()` (the base behaviour): move when on board, else rest. -/
def baseCatEndRound (s : GState) (ci : Nat) : StepRes :=
  match actorTile s (.cat ci) with
  | some _ => catMove s ci
  | none => catRest s ci

/-- `end_round` with dynamic dispatch: `Kitten.end_round` moves twice,
re-checking only its on-board status between the two moves. -/
def catEndRound (s : GState) (ci : Nat) : StepRes :=
  match s.cats.get? ci with
  | none => (s, some .assertionError)
  | some c =>
    match c.kind with
    | .kitten =>
      match actorTile s (.cat ci) with
      | some _ =>
        andThen (catMove s ci) (fun s1 =>
          match actorTile s1 (.cat ci) with
          | some _ => catMove s1 ci
          | none => (s1, none))
      | none => catRest s ci
    | _ => baseCatEndRound s ci

/-- `LaserPointer.end_round`'s loop: walk the `entrance()` chain, distract
the first cat found by 1 and stop; the fuel bounds the walk by the lane
length, which the chain can never exceed. -/
def laserScan (s : GState) : Option Pos → Nat → StepRes
  | _, 0 => (s, none)
  | none, _ + 1 => (s, none)
  | some p, fuel + 1 =>
    match s.occ p with
    | some (.cat ci) => catDistract s ci 1
    | _ => laserScan s (tileEntrance p) fuel

/-- `BallThrower.end_round`'s loop: like the laser scan but giving up after
`n` tiles (`tiles_checked < 3`). -/
def throwerScan (s : GState) : Option Pos → Nat → StepRes
  | _, 0 => (s, none)
  | none, _ + 1 => (s, none)
  | some p, n + 1 =>
    match s.occ p with
    | some (.cat ci) => catDistract s ci 1
    | _ => throwerScan s (tileEntrance p) n

/-- `ColorfulBallThrower.end_round`'s first loop, which also reports whether
a cat was found (`found_cat`). -/
def cbtScan (s : GState) : Option Pos → Nat → StepRes × Bool
  | _, 0 => ((s, none), false)
  | none, _ + 1 => ((s, none), false)
  | some p, n + 1 =>
    match s.occ p with
    | some (.cat ci) => (catDistract s ci 1, true)
    | _ => cbtScan s (tileEntrance p) n

/-- `ColorfulBallThrower.end_round`'s second loop: the furthest empty tile
within the window (`last_empty`). -/
def lastEmpty (s : GState) : Option Pos → Nat → Option Pos → Option Pos
  | _, 0, acc => acc
  | none, _ + 1, acc => acc
  | some p, n + 1, acc =>
    lastEmpty s (tileEntrance p) n (if s.occ p = none then some p else acc)

/-- `end_round()` with dynamic dispatch over the contraption classes.  Every
scanner starts from `self._tile.entrance()`, raising an `AttributeError`
when the contraption is off board. -/
def contraptionEndRound (s : GState) (i : Nat) : StepRes :=
  match s.contraptions.get? i with
  | none => (s, some .assertionError)
  | some c =>
    match c.kind with
    | .laser =>
      match c.tile with
      | none => (s, some .attributeError)
      | some p => laserScan s (tileEntrance p) LANE_WIDTH
    | .snack => (s, none)
    | .charger =>
      let s1 := if c.ready then { s with batteries := s.batteries + 1 } else s
      (modifyContraption s1 i (fun d => { d with ready := !d.ready }), none)
    | .thrower =>
      match c.tile with
      | none => (s, some .attributeError)
      | some p => throwerScan s (tileEntrance p) 3
    | .tripleLaser =>
      match c.tile with
      | none => (s, some .attributeError)
      | some p =>
        andThen (laserScan s (tileEntrance p) LANE_WIDTH) (fun s1 =>
          andThen
            (match tileAbove p with
             | some ap => laserScan s1 (tileEntrance ap) LANE_WIDTH
             | none => (s1, none))
            (fun s2 =>
              match tileBelow s2.laneCount p with
              | some bp => laserScan s2 (tileEntrance bp) LANE_WIDTH
              | none => (s2, none)))
    | .ballThrower =>
      match c.tile with
      | none => (s, some .attributeError)
      | some p =>
        match cbtScan s (tileEntrance p) 3 with
        | (r, true) => r
        | ((s1, e), false) =>
          match e with
          | some err => (s1, some err)
          | none =>
            match lastEmpty s1 (tileEntrance p) 3 none with
            | none => (s1, none)
            | some le =>
              let bi := s1.balls.length
              teleport { s1 with balls := s1.balls ++ [⟨none⟩] } (.ball bi) le
    | .heater => (s, none)

/-- Result of the cat pass of `GameManager.end_round`: an error, an early
`return` because the game ended after some cat's action, or completion. -/
inductive PassRes where
  | err (e : Err)
  | aborted
  | done
deriving DecidableEq, Repr

/-- The cat loop of `GameManager.end_round`: each cat acts in creation
order, and the loop returns as soon as `_game_ended` is observed. -/
def runCatsFrom (s : GState) : List Nat → GState × PassRes
  | [] => (s, .done)
  | i :: rest =>
    match catEndRound s i with
    | (s1, some e) => (s1, .err e)
    | (s1, none) =>
      if s1.gameEnded then (s1, .aborted) else runCatsFrom s1 rest

/-- The contraption loop of `GameManager.end_round`, in registration order.
(The live registry cannot change during this pass: contraption end-of-round
effects only distract cats and mint batteries.) -/
def runContraptionsFrom (s : GState) : List Nat → StepRes
  | [] => (s, none)
  | i :: rest =>
    match contraptionEndRound s i with
    | (s1, some e) => (s1, some e)
    | (s1, none) => runContraptionsFrom s1 rest

/-- `GameManager.end_round()`: one battery, the contraption pass, the cat
pass with its early return, then `increment_round` (which may win).  The
`update_attentions` call is display-only and stateless. -/
def gameEndRound (s : GState) : StepRes :=
  andThen (addBatteries s 1) (fun s1 =>
    andThen (runContraptionsFrom s1 s1.registry) (fun s2 =>
      match runCatsFrom s2 (List.range s2.cats.length) with
      | (s3, .err e) => (s3, some e)
      | (s3, .aborted) => (s3, none)
      | (s3, .done) => incrementRound s3))

/-- Placement cost of each contraption class (its constructor argument). -/
def costOf : ContraptionKind → Int
  | .laser => 7
  | .snack => 4
  | .charger => 3
  | .thrower => 3
  | .tripleLaser => 12
  | .ballThrower => 5
  | .heater => 4

/-- A freshly constructed contraption of the given class, detached. -/
def mkContraption (k : ContraptionKind) : ContraptionState :=
  { kind := k
    cost := costOf k
    uses := if k = .snack then 5 else 0
    ready := false
    tile := none }

/-- `Tile._clicked` with contraption kind `k` selected: build only when the
tile has an entrance (is not a lane-entrance tile), is empty, and the cost
is affordable; then spend, construct, register and attach.  A click can only
land on a tile that exists. -/
def tileClicked (s : GState) (p : Pos) (k : ContraptionKind) : StepRes :=
  if s.destroyed then (s, some .assertionError)
  else if (tileEntrance p).isSome ∧ s.occ p = none ∧ costOf k ≤ s.batteries then
    andThen (spendBatteries s (costOf k)) (fun s1 =>
      let i := s1.contraptions.length
      let s2 := addContraption { s1 with contraptions := s1.contraptions ++ [mkContraption k] } i
      teleport s2 (.contraption i) p)
  else (s, none)

/-- `Cat.__init__`: attention starts at 0; the attention/rest parameters are
stored.  The constructor assertions admit any starting rest time `≥ 0`. -/
def mkCat (k : CatKind) (sa nrt srt : Int) : CatState :=
  { kind := k
    startingAttention := sa
    attention := 0
    neededRestTime := nrt
    restTime := srt
    tile := none }

/-- The three `assert` statements of `Cat.__init__`. -/
def catCtorOk (sa nrt srt : Int) : Prop :=
  0 ≤ sa ∧ 1 ≤ nrt ∧ 0 ≤ srt

/-- `Tabby.__init__(initial_rest_time)`. -/
def mkTabby (srt : Int) : CatState := mkCat .tabby 4 4 srt

/-- `Calico.__init__(initial_rest_time)`. -/
def mkCalico (srt : Int) : CatState := mkCat .calico 5 4 srt

/-- `Kitten.__init__(initial_rest_time)`. -/
def mkKitten (srt : Int) : CatState := mkCat .kitten 3 6 srt

/-- The cat constructor selected by kind, as invoked from the game setup. -/
def mkCatOfKind : CatKind → Int → CatState
  | .tabby => mkTabby
  | .calico => mkCalico
  | .kitten => mkKitten

/-- An empty board occupancy. -/
def emptyOcc : Pos → Option ActorId := fun _ => none

/-- A fresh game state with the given number of lanes and no actors
(`GameManager.initialize` with empty cat and contraption lists). -/
def freshState (laneCount : Nat) : GState :=
  { laneCount := laneCount
    occ := emptyOcc
    cats := []
    contraptions := []
    registry := []
    balls := []
    batteries := STARTING_BATTERIES
    rounds := 0
    gameEnded := false
    destroyed := false
    loseCalls := 0
    rng := [] }

/-- Cat `ci`'s current attention, if the cat exists. -/
def catAttentionAt (s : GState) (ci : Nat) : Option Int :=
  (s.cats.get? ci).map (fun c => c.attention)

/-- Cat `ci`'s current tile, if the cat exists. -/
def catTileAt (s : GState) (ci : Nat) : Option (Option Pos) :=
  (s.cats.get? ci).map (fun c => c.tile)

-- ------------------------------------------------------------------
-- Claim-side predicates (phrased from the specification's words)
-- ------------------------------------------------------------------

/-- Spec: "no two Actors ever report the same occupied tile". -/
def noSharedTiles (s : GState) : Prop :=
  ∀ a b p, actorTile s a = some p → actorTile s b = some p → a = b

/-- Spec: "every occupied tile's occupant reports that exact tile". -/
def occupantBacklinks (s : GState) : Prop :=
  ∀ p a, s.occ p = some a → actorTile s a = some p

/-- The C4 invariant exactly as claimed: actor-side uniqueness plus
tile-side backlinks. -/
def claimActorInvariant (s : GState) : Prop :=
  noSharedTiles s ∧ occupantBacklinks s

/-- Direction actor-to-tile of the consistency invariant, with an excused
set `X` of actors whose position field may be stale. -/
def Dir1Except (s : GState) (X : ActorId → Prop) : Prop :=
  ∀ a, ¬ X a → ∀ p, actorTile s a = some p → s.occ p = some a

/-- Both directions of the consistency invariant, tolerating stale position
fields only on colorful balls (a picked-up ball keeps its old field). -/
def ConsistentX (s : GState) : Prop :=
  Dir1Except s (fun a => ∃ i, a = .ball i) ∧ occupantBacklinks s

/-- The C5 invariant exactly as claimed for one unit: exactly one of
"on board with attention > 0" and "off board with restTime ≥ 0 and
attention == 0", and "restTime == 0 iff on board". -/
def claimCatInvariant (c : CatState) : Prop :=
  ((c.tile.isSome ∧ 1 ≤ c.attention) ∨ (c.tile = none ∧ 0 ≤ c.restTime ∧ c.attention = 0))
  ∧ ¬((c.tile.isSome ∧ 1 ≤ c.attention) ∧ (c.tile = none ∧ 0 ≤ c.restTime ∧ c.attention = 0))
  ∧ (c.restTime = 0 ↔ c.tile.isSome)

/-- The C5 invariant over every unit in the game. -/
def allCatsClaimInvariant (s : GState) : Prop :=
  ∀ c ∈ s.cats, claimCatInvariant c

/-- Fixed per-unit parameters are sane: positive starting attention and
rest requirement (true of all three cat classes: 4/5/3 and 4/4/6). -/
def allCatsWf (s : GState) : Prop :=
  ∀ c ∈ s.cats, 1 ≤ c.startingAttention ∧ 1 ≤ c.neededRestTime

/-- The C6 coverage positions, enumerated from the claim's offsets and in
the claim's scan order: own lane right (+1, +2), own lane left (−1, −2),
lane above (0, +1, −1), lane below (0, +1, −1); positions beyond a board
edge are dropped. -/
def claimHeaterScanOrder (laneCount : Nat) (p : Pos) : List (Option Pos) :=
  [ (if p.col + 1 < LANE_WIDTH then some ⟨p.row, p.col + 1⟩ else none),
    (if p.col + 2 < LANE_WIDTH then some ⟨p.row, p.col + 2⟩ else none),
    (if 1 ≤ p.col then some ⟨p.row, p.col - 1⟩ else none),
    (if 2 ≤ p.col then some ⟨p.row, p.col - 2⟩ else none),
    (if 1 ≤ p.row then some ⟨p.row - 1, p.col⟩ else none),
    (if 1 ≤ p.row ∧ p.col + 1 < LANE_WIDTH then some ⟨p.row - 1, p.col + 1⟩ else none),
    (if 1 ≤ p.row ∧ 1 ≤ p.col then some ⟨p.row - 1, p.col - 1⟩ else none),
    (if p.row + 1 < laneCount then some ⟨p.row + 1, p.col⟩ else none),
    (if p.row + 1 < laneCount ∧ p.col + 1 < LANE_WIDTH then some ⟨p.row + 1, p.col + 1⟩ else none),
    (if p.row + 1 < laneCount ∧ 1 ≤ p.col then some ⟨p.row + 1, p.col - 1⟩ else none) ]

/-- The first cat on the `entrance()` chain starting at `t`, within `fuel`
tiles, skipping empty tiles and non-cat occupants alike. -/
def firstCatInChain (s : GState) : Option Pos → Nat → Option Nat
  | _, 0 => none
  | none, _ + 1 => none
  | some p, n + 1 =>
    match s.occ p with
    | some (.cat ci) => some ci
    | _ => firstCatInChain s (tileEntrance p) n

/-- `advanceRound` as the specification words it: (1) grant +1 resource;
(2) `endOfRound` on every currently-registered device in registration
order; (3) `endOfRound` on every unit in creation order, aborting the pass
the moment a loss is signalled; (4) if still Active, increment the round
counter, transitioning to Won exactly when the counter reaches the
threshold `WIN_ROUND`. -/
def specAdvanceRound (s : GState) : StepRes :=
  andThen (addBatteries s 1) (fun s1 =>
    andThen (runContraptionsFrom s1 s1.registry) (fun s2 =>
      match runCatsFrom s2 (List.range s2.cats.length) with
      | (s3, .err e) => (s3, some e)
      | (s3, .aborted) => (s3, none)
      | (s3, .done) =>
        if s3.gameEnded then (s3, none)
        else
          let s4 := { s3 with rounds := s3.rounds + 1 }
          if s4.rounds = WIN_ROUND then winGame s4 else (s4, none)))

/-- The actor id denotes an existing object (its index is in range). -/
def actorLive (s : GState) : ActorId → Prop
  | .cat i => (s.cats.get? i).isSome = true
  | .contraption i => (s.contraptions.get? i).isSome = true
  | .ball i => (s.balls.get? i).isSome = true

/-- The excused set contains only colorful balls. -/
def IsBallish (X : ActorId → Prop) : Prop :=
  ∀ a, X a → ∃ i, a = ActorId.ball i

/-- Two states agreeing on the round counter and the ended flag (used to
record that cat and device actions never touch the counter, and that
device actions never touch the flag). -/
def MetaEq (s t : GState) : Prop :=
  t.rounds = s.rounds ∧ t.gameEnded = s.gameEnded

-- ------------------------------------------------------------------
-- Concrete scenario states
-- ------------------------------------------------------------------

/-- One lane, a snack dispenser about to be placed at column 3. -/
def c10Start : GState := freshState 1

/-- The state after the placement click for the C10 scenario. -/
def c10Placed : GState := (tileClicked c10Start ⟨0, 3⟩ .snack).1

/-- One `interact()` on contraption 0 (state component). -/
def c10It (s : GState) : GState := (contraptionInteract s 0).1

/-- One lane; a tabby with 1 attention at column 2, a colorful ball at
column 1 directly ahead of it. -/
def c7s0 : GState :=
  { freshState 1 with
    occ := Function.update (Function.update emptyOcc ⟨0, 2⟩ (some (.cat 0))) ⟨0, 1⟩ (some (.ball 0))
    cats := [{ mkTabby 4 with attention := 1, restTime := 0, tile := some ⟨0, 2⟩ }]
    balls := [⟨some ⟨0, 1⟩⟩] }

/-- One lane; a kitten on the goal-edge tile (column 0, whose exit does not
exist), followed in creation order by a resting tabby. -/
def c3s0 : GState :=
  { freshState 1 with
    occ := Function.update emptyOcc ⟨0, 0⟩ (some (.cat 0))
    cats := [{ mkKitten 4 with attention := 3, restTime := 0, tile := some ⟨0, 0⟩ },
             mkTabby 5] }

/-- One lane; a tabby with 4 attention at column 3, a ball ahead at column
2, and a space heater at column 1 (within passive range of column 2). -/
def c2cex0 : GState :=
  { freshState 1 with
    occ := Function.update (Function.update (Function.update emptyOcc
             ⟨0, 3⟩ (some (.cat 0))) ⟨0, 2⟩ (some (.ball 0))) ⟨0, 1⟩ (some (.contraption 0))
    cats := [{ mkTabby 4 with attention := 4, restTime := 0, tile := some ⟨0, 3⟩ }]
    balls := [⟨some ⟨0, 2⟩⟩]
    contraptions := [{ mkContraption .heater with tile := some ⟨0, 1⟩ }]
    registry := [0] }

/-- One lane; a tabby with 4 attention at column 2, a ball ahead at column
1, no heaters: the pickup succeeds and the cat survives. -/
def c4cex0 : GState :=
  { freshState 1 with
    occ := Function.update (Function.update emptyOcc ⟨0, 2⟩ (some (.cat 0))) ⟨0, 1⟩ (some (.ball 0))
    cats := [{ mkTabby 4 with attention := 4, restTime := 0, tile := some ⟨0, 2⟩ }]
    balls := [⟨some ⟨0, 1⟩⟩] }

/-- The C5 per-unit invariant together with the fixed-parameter sanity
conditions, over every unit. -/
def CatsOK (s : GState) : Prop := allCatsClaimInvariant s ∧ allCatsWf s

/-- The combined state invariant threaded through a unit's end-of-round:
tile consistency modulo picked-up balls, plus the unit lifecycle
invariant. -/
def StateOK (s : GState) : Prop := ConsistentX s ∧ CatsOK s

/-- One lane, no devices, a single tabby resting with one round to go. -/
def c5w : GState := { freshState 1 with cats := [mkTabby 1] }

/-- One lane; a tabby with 4 attention at column 2 and a heater at column 1
(within passive range at own-lane offset −1). -/
def c6w0 : GState :=
  { freshState 1 with
    occ := Function.update (Function.update emptyOcc ⟨0, 2⟩ (some (.cat 0))) ⟨0, 1⟩ (some (.contraption 0))
    cats := [{ mkTabby 4 with attention := 4, restTime := 0, tile := some ⟨0, 2⟩ }]
    contraptions := [{ mkContraption .heater with tile := some ⟨0, 1⟩ }]
    registry := [0] }

/-- One lane; a laser pointer at column 1, a snack dispenser (a non-unit
occupant) at column 3, and a tabby behind it at column 5. -/
def c9cex0 : GState :=
  { freshState 1 with
    occ := Function.update (Function.update (Function.update emptyOcc
             ⟨0, 1⟩ (some (.contraption 0))) ⟨0, 3⟩ (some (.contraption 1))) ⟨0, 5⟩ (some (.cat 0))
    cats := [{ mkTabby 4 with attention := 4, restTime := 0, tile := some ⟨0, 5⟩ }]
    contraptions := [{ mkContraption .laser with tile := some ⟨0, 1⟩ },
                     { mkContraption .snack with tile := some ⟨0, 3⟩ }]
    registry := [0, 1] }

-- ==================================================================
-- Theorems
-- ==================================================================

-- Helper lemmas ----------------------------------------------------

theorem list_get?_append_length {α : Type} (l : List α) (x : α) :
    (l ++ [x]).get? l.length = some x := by
  induction l with
  | nil => rfl
  | cons a t ih => simp [ih]

theorem list_set_append_length {α : Type} (l : List α) (x y : α) :
    (l ++ [x]).set l.length y = l ++ [y] := by
  induction l with
  | nil => rfl
  | cons a t ih => simp [ih]

theorem costOf_nonneg (k : ContraptionKind) : 0 ≤ costOf k := by
  cases k <;> decide

-- Meta-preservation lemmas: no cat or contraption action touches the round
-- counter, and no contraption action touches the ended flag. --------------

theorem metaEq_refl (s : GState) : MetaEq s s := ⟨rfl, rfl⟩

theorem metaEq_trans {s t u : GState} (h1 : MetaEq s t) (h2 : MetaEq t u) : MetaEq s u :=
  ⟨h2.1.trans h1.1, h2.2.trans h1.2⟩

theorem metaEq_andThen {s : GState} {r : StepRes} {f : GState → StepRes}
    (h1 : MetaEq s r.1) (h2 : ∀ t, MetaEq t (f t).1) : MetaEq s (andThen r f).1 := by
  obtain ⟨s0, e⟩ := r
  cases e with
  | none => exact metaEq_trans h1 (h2 s0)
  | some e0 => exact h1

theorem takeRand_meta (s : GState) : MetaEq s (takeRand s).2 := by
  unfold takeRand
  split <;> exact ⟨rfl, rfl⟩

theorem setOcc_meta (s : GState) (p : Pos) (a : Option ActorId) : MetaEq s (setOcc s p a) :=
  ⟨rfl, rfl⟩

theorem modifyCat_meta (s : GState) (i : Nat) (f : CatState → CatState) :
    MetaEq s (modifyCat s i f) := by
  unfold modifyCat
  split <;> exact ⟨rfl, rfl⟩

theorem modifyContraption_meta (s : GState) (i : Nat) (f : ContraptionState → ContraptionState) :
    MetaEq s (modifyContraption s i f) := by
  unfold modifyContraption
  split <;> exact ⟨rfl, rfl⟩

theorem modifyBall_meta (s : GState) (i : Nat) (f : BallState → BallState) :
    MetaEq s (modifyBall s i f) := by
  unfold modifyBall
  split <;> exact ⟨rfl, rfl⟩

theorem setActorTile_meta (s : GState) (a : ActorId) (t : Option Pos) :
    MetaEq s (setActorTile s a t) := by
  cases a with
  | cat i => exact modifyCat_meta s i _
  | contraption i => exact modifyContraption_meta s i _
  | ball i => exact modifyBall_meta s i _

theorem clearActor_meta (s : GState) (p : Pos) : MetaEq s (clearActor s p).1 := by
  unfold clearActor
  split
  · exact metaEq_refl s
  · exact setOcc_meta s p none

theorem setActor_meta (s : GState) (p : Pos) (a : ActorId) : MetaEq s (setActor s p a).1 := by
  unfold setActor
  split
  · exact metaEq_refl s
  · exact setOcc_meta s p _

theorem teleport_meta (s : GState) (a : ActorId) (p : Pos) : MetaEq s (teleport s a p).1 := by
  unfold teleport
  apply metaEq_andThen
  · split
    · exact clearActor_meta s _
    · exact metaEq_refl s
  · intro t
    exact metaEq_trans (setActorTile_meta t a (some p)) (setActor_meta _ p a)

theorem removeFromBoard_meta (s : GState) (a : ActorId) : MetaEq s (removeFromBoard s a).1 := by
  unfold removeFromBoard
  split
  · exact metaEq_refl s
  · apply metaEq_andThen
    · exact clearActor_meta s _
    · intro t
      exact setActorTile_meta t a none

theorem removeContraption_meta (s : GState) (i : Nat) : MetaEq s (removeContraption s i).1 := by
  unfold removeContraption
  split <;> exact ⟨rfl, rfl⟩

theorem baseInteract_meta (s : GState) (i : Nat) : MetaEq s (baseInteract s i).1 := by
  unfold baseInteract
  split
  · exact metaEq_refl s
  · apply metaEq_andThen
    · exact clearActor_meta s _
    · intro t
      exact metaEq_trans (setActorTile_meta t _ none) (removeContraption_meta _ i)

theorem contraptionInteract_meta (s : GState) (i : Nat) :
    MetaEq s (contraptionInteract s i).1 := by
  unfold contraptionInteract
  split
  · exact metaEq_refl s
  · split
    · split
      · exact metaEq_trans (modifyContraption_meta s i _) (baseInteract_meta _ i)
      · exact modifyContraption_meta s i _
    · exact baseInteract_meta s i

theorem baseDistract_meta (s : GState) (ci : Nat) (amount : Int) :
    MetaEq s (baseDistract s ci amount).1 := by
  unfold baseDistract
  split
  · exact metaEq_refl s
  · split
    · exact metaEq_refl s
    · split
      · exact metaEq_trans (modifyCat_meta s ci _) (removeFromBoard_meta _ _)
      · exact modifyCat_meta s ci _

theorem catDistract_meta (s : GState) (ci : Nat) (amount : Int) :
    MetaEq s (catDistract s ci amount).1 := by
  unfold catDistract
  split
  · exact metaEq_refl s
  · split
    · apply metaEq_andThen
      · exact baseDistract_meta s ci amount
      · intro t
        split
        · exact metaEq_refl t
        · split
          · exact metaEq_refl t
          · split
            · exact teleport_meta t _ _
            · exact metaEq_refl t
    · exact baseDistract_meta s ci amount

theorem heaterBelowBlock_meta (s : GState) (ci : Nat) (p : Pos) :
    MetaEq s (heaterBelowBlock s ci p).1 := by
  unfold heaterBelowBlock
  split
  · split
    · exact catDistract_meta s ci 1
    · split
      · exact catDistract_meta s ci 1
      · split
        · exact catDistract_meta s ci 1
        · exact metaEq_refl s
  · exact metaEq_refl s

theorem catCheckSpaceHeater_meta (s : GState) (ci : Nat) :
    MetaEq s (catCheckSpaceHeater s ci).1 := by
  unfold catCheckSpaceHeater
  repeat' split
  all_goals
    first
      | exact catDistract_meta s ci 1
      | exact heaterBelowBlock_meta s ci _
      | exact metaEq_refl s

theorem laserScan_meta (s : GState) (t : Option Pos) (fuel : Nat) :
    MetaEq s (laserScan s t fuel).1 := by
  induction fuel generalizing t with
  | zero => cases t <;> exact ⟨rfl, rfl⟩
  | succ n ih =>
    cases t with
    | none => exact metaEq_refl s
    | some p =>
      unfold laserScan
      split
      · exact catDistract_meta s _ 1
      · exact ih _

theorem throwerScan_meta (s : GState) (t : Option Pos) (fuel : Nat) :
    MetaEq s (throwerScan s t fuel).1 := by
  induction fuel generalizing t with
  | zero => cases t <;> exact ⟨rfl, rfl⟩
  | succ n ih =>
    cases t with
    | none => exact metaEq_refl s
    | some p =>
      unfold throwerScan
      split
      · exact catDistract_meta s _ 1
      · exact ih _

theorem cbtScan_meta (s : GState) (t : Option Pos) (fuel : Nat) :
    MetaEq s (cbtScan s t fuel).1.1 := by
  induction fuel generalizing t with
  | zero => cases t <;> exact ⟨rfl, rfl⟩
  | succ n ih =>
    cases t with
    | none => exact metaEq_refl s
    | some p =>
      unfold cbtScan
      split
      · exact catDistract_meta s _ 1
      · exact ih _

theorem contraptionEndRound_meta (s : GState) (i : Nat) :
    MetaEq s (contraptionEndRound s i).1 := by
  unfold contraptionEndRound
  split
  · exact metaEq_refl s
  · split
    · -- laser
      split
      · exact metaEq_refl s
      · exact laserScan_meta s _ _
    · -- snack
      exact metaEq_refl s
    · -- charger
      split
      · exact metaEq_trans (⟨rfl, rfl⟩ : MetaEq s _) (modifyContraption_meta _ i _)
      · exact modifyContraption_meta s i _
    · -- thrower
      split
      · exact metaEq_refl s
      · exact throwerScan_meta s _ _
    · -- triple laser
      split
      · exact metaEq_refl s
      · apply metaEq_andThen
        · exact laserScan_meta s _ _
        · intro t1
          apply metaEq_andThen
          · split
            · exact laserScan_meta t1 _ _
            · exact metaEq_refl t1
          · intro t2
            split
            · exact laserScan_meta t2 _ _
            · exact metaEq_refl t2
    · -- colorful ball thrower
      split
      · exact metaEq_refl s
      · rename_i p hp
        split
        · rename_i r hscan
          have hm := cbtScan_meta s (tileEntrance p) 3
          rw [hscan] at hm
          exact hm
        · rename_i s1 e hscan
          have hm := cbtScan_meta s (tileEntrance p) 3
          rw [hscan] at hm
          split
          · exact hm
          · split
            · exact hm
            · exact metaEq_trans (metaEq_trans hm (⟨rfl, rfl⟩ : MetaEq s1 _))
                (teleport_meta _ _ _)
    · -- heater
      exact metaEq_refl s

theorem runContraptionsFrom_meta (s : GState) (l : List Nat) :
    MetaEq s (runContraptionsFrom s l).1 := by
  induction l generalizing s with
  | nil => exact metaEq_refl s
  | cons i rest ih =>
    unfold runContraptionsFrom
    split
    · rename_i s1 e heq
      have := contraptionEndRound_meta s i
      rw [heq] at this
      exact this
    · rename_i s1 heq
      have h1 := contraptionEndRound_meta s i
      rw [heq] at h1
      exact metaEq_trans h1 (ih s1)

-- Round-counter-only preservation for the cat pass (a cat action may end
-- the game, but never touches the counter). ------------------------------

theorem destroyGM_rounds (s : GState) : (destroyGM s).1.rounds = s.rounds := by
  unfold destroyGM
  split <;> rfl

theorem loseGame_rounds (s : GState) : (loseGame s).1.rounds = s.rounds := by
  unfold loseGame
  exact destroyGM_rounds _

theorem catMove_rounds (s : GState) (ci : Nat) : (catMove s ci).1.rounds = s.rounds := by
  unfold catMove
  split
  · rfl
  · split
    · rfl
    · split
      · split
        · rfl
        · exact loseGame_rounds s
      · split
        · exact (metaEq_andThen (clearActor_meta s _) (fun t1 =>
            metaEq_andThen (teleport_meta t1 _ _) (fun t2 =>
              metaEq_andThen (catDistract_meta t2 _ 1) (fun t3 =>
                catCheckSpaceHeater_meta t3 ci)))).1
        · exact (metaEq_andThen (teleport_meta s _ _) (fun t1 =>
            catCheckSpaceHeater_meta t1 ci)).1
        · exact (contraptionInteract_meta s _).1
        · rfl

theorem roundsEq_andThen {s : GState} {r : StepRes} {f : GState → StepRes}
    (h1 : r.1.rounds = s.rounds) (h2 : ∀ t, (f t).1.rounds = t.rounds) :
    (andThen r f).1.rounds = s.rounds := by
  obtain ⟨s0, e⟩ := r
  cases e with
  | none => exact (h2 s0).trans h1
  | some e0 => exact h1

theorem catRest_rounds (s : GState) (ci : Nat) : (catRest s ci).1.rounds = s.rounds := by
  simp only [catRest]
  split
  · rfl
  · split
    · split
      · exact (modifyCat_meta s ci _).1
      · split
        · exact (metaEq_trans (modifyCat_meta s ci _) (modifyCat_meta _ ci _)).1
        · exact (metaEq_trans (modifyCat_meta s ci _)
            (metaEq_trans (takeRand_meta _)
              (metaEq_trans (modifyCat_meta _ ci _) (teleport_meta _ _ _)))).1
    · exact (modifyCat_meta s ci _).1

theorem catEndRound_rounds (s : GState) (ci : Nat) : (catEndRound s ci).1.rounds = s.rounds := by
  unfold catEndRound
  split
  · rfl
  · split
    · split
      · refine roundsEq_andThen (catMove_rounds s ci) ?_
        intro t
        split
        · exact catMove_rounds t ci
        · rfl
      · exact catRest_rounds s ci
    · unfold baseCatEndRound
      split
      · exact catMove_rounds s ci
      · exact catRest_rounds s ci

theorem runCatsFrom_rounds (s : GState) (l : List Nat) :
    (runCatsFrom s l).1.rounds = s.rounds := by
  induction l generalizing s with
  | nil => rfl
  | cons i rest ih =>
    unfold runCatsFrom
    split
    · rename_i s1 e heq
      have h1 := catEndRound_rounds s i
      rw [heq] at h1
      exact h1
    · rename_i s1 heq
      have h1 := catEndRound_rounds s i
      rw [heq] at h1
      split
      · exact h1
      · exact (ih s1).trans h1

theorem runCatsFrom_done_gameEnded (s : GState) (l : List Nat) (t : GState)
    (hdone : runCatsFrom s l = (t, .done)) (hg : s.gameEnded = false) :
    t.gameEnded = false := by
  induction l generalizing s with
  | nil =>
    cases hdone
    exact hg
  | cons i rest ih =>
    unfold runCatsFrom at hdone
    split at hdone
    · cases hdone
    · rename_i s1 heq
      split at hdone
      · cases hdone
      · rename_i hge
        exact ih s1 hdone (by revert hge; cases s1.gameEnded <;> simp)

/-- C1: in the Active state, `end_round` is exactly the specification's
`advanceRound`: first grant +1 resource, then `endOfRound` on every
registered device in registration order, then on every unit in creation
order aborting on a loss, and, if still active, increment the round counter
and transition to Won exactly when the counter reaches `WIN_ROUND = 40`. -/
theorem c1_advance_round_order (s : GState) (hg : s.gameEnded = false)
    (hr : s.rounds < WIN_ROUND) :
    gameEndRound s = specAdvanceRound s := by
  unfold gameEndRound specAdvanceRound
  simp only [addBatteries]
  rw [if_neg (by omega)]
  simp only [andThen]
  have h1g : ({ s with batteries := s.batteries + 1 } : GState).gameEnded = false := hg
  have h1r : ({ s with batteries := s.batteries + 1 } : GState).rounds = s.rounds := rfl
  rcases hc : runContraptionsFrom { s with batteries := s.batteries + 1 }
      ({ s with batteries := s.batteries + 1 } : GState).registry with ⟨s2, e2⟩
  have hcm := runContraptionsFrom_meta { s with batteries := s.batteries + 1 }
      ({ s with batteries := s.batteries + 1 } : GState).registry
  rw [hc] at hcm
  cases e2 with
  | some e => rfl
  | none =>
    dsimp only
    rcases hk : runCatsFrom s2 (List.range s2.cats.length) with ⟨s3, pr⟩
    have hkr := runCatsFrom_rounds s2 (List.range s2.cats.length)
    rw [hk] at hkr
    cases pr with
    | err e => rfl
    | aborted => rfl
    | done =>
      dsimp only
      have h3g : s3.gameEnded = false :=
        runCatsFrom_done_gameEnded s2 _ s3 hk (hcm.2.trans h1g)
      have h3r : s3.rounds = s.rounds := hkr.trans (hcm.1.trans h1r)
      rw [if_neg (by rw [h3g]; exact Bool.false_ne_true)]
      unfold incrementRound
      dsimp only
      by_cases h40 : s3.rounds + 1 = WIN_ROUND
      · rw [if_pos (le_of_eq h40.symm), if_pos h40]
      · rw [if_neg (by omega), if_neg h40]

/-- Witness for C1 at a concrete input: a fresh one-lane game. -/
theorem c1_advance_round_order_witness :
    (freshState 1).gameEnded = false ∧ (freshState 1).rounds < WIN_ROUND ∧
    gameEndRound (freshState 1) = specAdvanceRound (freshState 1) :=
  ⟨rfl, by decide, c1_advance_round_order (freshState 1) rfl (by decide)⟩

theorem laserScan_eq_firstCat (s : GState) (t : Option Pos) (fuel : Nat) :
    laserScan s t fuel =
      match firstCatInChain s t fuel with
      | some ci => catDistract s ci 1
      | none => (s, none) := by
  induction fuel generalizing t with
  | zero => cases t <;> rfl
  | succ n ih =>
    cases t with
    | none => rfl
    | some p =>
      show (match s.occ p with
        | some (.cat ci) => catDistract s ci 1
        | _ => laserScan s (tileEntrance p) n) = _
      rcases ho : s.occ p with _ | a
      · simpa [firstCatInChain, ho] using ih (tileEntrance p)
      · cases a with
        | cat ci => simp [firstCatInChain, ho]
        | contraption i => simpa [firstCatInChain, ho] using ih (tileEntrance p)
        | ball i => simpa [firstCatInChain, ho] using ih (tileEntrance p)

theorem throwerScan_eq_laserScan (s : GState) (t : Option Pos) (fuel : Nat) :
    throwerScan s t fuel = laserScan s t fuel := by
  induction fuel generalizing t with
  | zero => cases t <;> rfl
  | succ n ih =>
    cases t with
    | none => rfl
    | some p =>
      show (match s.occ p with
        | some (.cat ci) => catDistract s ci 1
        | _ => throwerScan s (tileEntrance p) n) = _
      rcases ho : s.occ p with _ | a
      · simpa [laserScan, ho] using ih (tileEntrance p)
      · cases a with
        | cat ci => simp [laserScan, ho]
        | contraption i => simpa [laserScan, ho] using ih (tileEntrance p)
        | ball i => simpa [laserScan, ho] using ih (tileEntrance p)

/-- C9, amended: forward scans walk the `entrance()` chain from the
device's own tile and stop at the first unit found or at the end of the
lane (the bounded thrower after its 3-tile budget); they continue past
non-unit occupants, so a unit behind a non-unit occupant is still hit.
The full-lane scanner reduces the first unit's attention via a single
`distract(1)`. -/
theorem c9_forward_scans (s : GState) (i : Nat) (c : ContraptionState) (p : Pos)
    (hi : s.contraptions.get? i = some c) (ht : c.tile = some p) :
    (c.kind = .laser →
      contraptionEndRound s i =
        match firstCatInChain s (tileEntrance p) LANE_WIDTH with
        | some ci => catDistract s ci 1
        | none => (s, none)) ∧
    (c.kind = .thrower →
      contraptionEndRound s i =
        match firstCatInChain s (tileEntrance p) 3 with
        | some ci => catDistract s ci 1
        | none => (s, none)) := by
  constructor
  · intro hk
    unfold contraptionEndRound
    rw [hi]
    dsimp only
    rw [hk]
    dsimp only
    rw [ht]
    exact laserScan_eq_firstCat s (tileEntrance p) LANE_WIDTH
  · intro hk
    unfold contraptionEndRound
    rw [hi]
    dsimp only
    rw [hk]
    dsimp only
    rw [ht]
    dsimp only
    rw [throwerScan_eq_laserScan]
    exact laserScan_eq_firstCat s (tileEntrance p) 3

/-- Witness for C9's amended statement at a concrete input: the laser of
the counterexample board, which hits the cat behind the snack dispenser. -/
theorem c9_forward_scans_witness :
    contraptionEndRound c9cex0 0 =
      match firstCatInChain c9cex0 (tileEntrance ⟨0, 1⟩) LANE_WIDTH with
      | some ci => catDistract c9cex0 ci 1
      | none => (c9cex0, none) :=
  (c9_forward_scans c9cex0 0 { mkContraption .laser with tile := some ⟨0, 1⟩ } ⟨0, 1⟩
    (by decide) (by decide)).1 (by decide)

/-- C10: placing a durability-5 snack dispenser and interacting with it
exactly 5 times removes it on the 5th interaction and not before: after
each of the first four interactions it still occupies its tile and is still
registered; the fifth detaches it and empties the registry. -/
theorem c10_snack_five_interactions :
    (tileClicked c10Start ⟨0, 3⟩ .snack).2 = none ∧
    c10Placed.occ ⟨0, 3⟩ = some (.contraption 0) ∧
    c10Placed.registry = [0] ∧
    ((c10It^[1] c10Placed).occ ⟨0, 3⟩ = some (.contraption 0) ∧ (c10It^[1] c10Placed).registry = [0]) ∧
    ((c10It^[2] c10Placed).occ ⟨0, 3⟩ = some (.contraption 0) ∧ (c10It^[2] c10Placed).registry = [0]) ∧
    ((c10It^[3] c10Placed).occ ⟨0, 3⟩ = some (.contraption 0) ∧ (c10It^[3] c10Placed).registry = [0]) ∧
    ((c10It^[4] c10Placed).occ ⟨0, 3⟩ = some (.contraption 0) ∧ (c10It^[4] c10Placed).registry = [0]) ∧
    ((c10It^[5] c10Placed).occ ⟨0, 3⟩ = none ∧
      (c10It^[5] c10Placed).registry = [] ∧
      ((c10It^[5] c10Placed).contraptions.get? 0).map (fun c => c.tile) = some none) ∧
    (contraptionInteract (c10It^[4] c10Placed) 0).2 = none := by
  decide

/-- C7: a pickup that drops the unit's attention to 0 removes it from the
board, and the passive-range check that follows then dereferences the
cleared position field: the move raises an `AttributeError` instead of
completing.  At the moment of the raise the cat is already off board with
attention 0 and the ball is gone. -/
theorem c7_pickup_removal_heater_check_crash :
    (catMove c7s0 0).2 = some .attributeError ∧
    catTileAt (catMove c7s0 0).1 0 = some none ∧
    catAttentionAt (catMove c7s0 0).1 0 = some 0 ∧
    (catMove c7s0 0).1.occ ⟨0, 1⟩ = none := by
  decide

theorem list_get?_set_self {α : Type} (l : List α) (i : Nat) (x : α)
    (h : (l.get? i).isSome) : (l.set i x).get? i = some x := by
  induction l generalizing i with
  | nil => simp [List.get?] at h
  | cons a t ih =>
    cases i with
    | zero => rfl
    | succ j => exact ih j (by simpa using h)

theorem list_get?_set_other {α : Type} (l : List α) (i j : Nat) (x : α)
    (hne : i ≠ j) : (l.set i x).get? j = l.get? j := by
  induction l generalizing i j with
  | nil => rfl
  | cons a t ih =>
    cases i with
    | zero =>
      cases j with
      | zero => exact absurd rfl hne
      | succ k => rfl
    | succ i2 =>
      cases j with
      | zero => rfl
      | succ k => exact ih i2 k (fun hh => hne (by rw [hh]))

theorem if_or_fold {α : Type} {A B : Bool} {D E : α} :
    (if A then D else if B then D else E) = (if (A || B) then D else E) := by
  cases A <;> cases B <;> simp

theorem isHeaterAt_none (s : GState) : isHeaterAt s none = false := rfl

theorem catsEq_andThen {s : GState} {r : StepRes} {f : GState → StepRes}
    (h1 : r.1.cats = s.cats) (h2 : ∀ t, (f t).1.cats = t.cats) :
    (andThen r f).1.cats = s.cats := by
  obtain ⟨s0, e⟩ := r
  cases e with
  | none => exact (h2 s0).trans h1
  | some e0 => exact h1

theorem clearActor_cats (s : GState) (p : Pos) : (clearActor s p).1.cats = s.cats := by
  unfold clearActor
  split <;> rfl

theorem removeContraption_cats (s : GState) (i : Nat) :
    (removeContraption s i).1.cats = s.cats := by
  unfold removeContraption
  split <;> rfl

theorem modifyContraption_cats (s : GState) (i : Nat) (f : ContraptionState → ContraptionState) :
    (modifyContraption s i f).cats = s.cats := by
  unfold modifyContraption
  split <;> rfl

theorem baseInteract_cats (s : GState) (i : Nat) : (baseInteract s i).1.cats = s.cats := by
  unfold baseInteract
  split
  · rfl
  · refine catsEq_andThen (clearActor_cats s _) ?_
    intro t
    exact (removeContraption_cats _ i).trans (modifyContraption_cats t i _)

theorem contraptionInteract_cats (s : GState) (i : Nat) :
    (contraptionInteract s i).1.cats = s.cats := by
  unfold contraptionInteract
  split
  · rfl
  · split
    · split
      · exact (baseInteract_cats _ i).trans (modifyContraption_cats s i _)
      · exact modifyContraption_cats s i _
    · exact baseInteract_cats s i

/-- C2, amended: the move priorities apply in strict source order — missing
exit means loss and no movement; an obstacle token ahead is picked up
(tile cleared), the unit teleports there, loses 1 attention from the pickup
distraction, and then the passive-range check runs (which may cost further
attention or remove the unit); an empty tile ahead means a move followed by
the passive-range check; a device ahead means its interact effect runs and
the unit does not move; another unit ahead means no change at all. -/
theorem c2_move_priorities (s : GState) (ci : Nat) (c : CatState) (p : Pos)
    (hc : s.cats.get? ci = some c) (ht : c.tile = some p) (hd : s.destroyed = false) :
    (tileExit p = none →
      (catMove s ci).2 = none ∧
      (catMove s ci).1.gameEnded = true ∧
      (catMove s ci).1.cats = s.cats ∧
      (catMove s ci).1.occ = s.occ) ∧
    (∀ q b, tileExit p = some q → s.occ q = some (.ball b) →
      catMove s ci =
        andThen (clearActor s q) (fun s1 =>
          andThen (teleport s1 (.cat ci) q) (fun s2 =>
            andThen (catDistract s2 ci 1) (fun s3 => catCheckSpaceHeater s3 ci)))) ∧
    (∀ q, tileExit p = some q → s.occ q = none →
      catMove s ci =
        andThen (teleport s (.cat ci) q) (fun s1 => catCheckSpaceHeater s1 ci)) ∧
    (∀ q j, tileExit p = some q → s.occ q = some (.contraption j) →
      catMove s ci = contraptionInteract s j ∧ (catMove s ci).1.cats = s.cats) ∧
    (∀ q j, tileExit p = some q → s.occ q = some (.cat j) → catMove s ci = (s, none)) := by
  have hm : catMove s ci =
      match tileExit p with
      | none => if s.destroyed then (s, some .assertionError) else loseGame s
      | some nxt =>
        match s.occ nxt with
        | some (.ball _) =>
          andThen (clearActor s nxt) (fun s1 =>
            andThen (teleport s1 (.cat ci) nxt) (fun s2 =>
              andThen (catDistract s2 ci 1) (fun s3 => catCheckSpaceHeater s3 ci)))
        | none =>
          andThen (teleport s (.cat ci) nxt) (fun s1 => catCheckSpaceHeater s1 ci)
        | some (.contraption i) => contraptionInteract s i
        | some (.cat _) => (s, none) := by
    unfold catMove
    rw [hc]
    dsimp only
    rw [ht]
  refine ⟨?_, ?_, ?_, ?_, ?_⟩
  · intro hexit
    rw [hm, hexit]
    dsimp only
    rw [if_neg (by rw [hd]; exact Bool.false_ne_true)]
    unfold loseGame destroyGM
    rw [if_neg (by rw [hd]; exact Bool.false_ne_true)]
    exact ⟨rfl, rfl, rfl, rfl⟩
  · intro q b hexit hq
    rw [hm, hexit]
    dsimp only
    rw [hq]
  · intro q hexit hq
    rw [hm, hexit]
    dsimp only
    rw [hq]
  · intro q j hexit hq
    rw [hm, hexit]
    dsimp only
    rw [hq]
    exact ⟨rfl, contraptionInteract_cats s j⟩
  · intro q j hexit hq
    rw [hm, hexit]
    dsimp only
    rw [hq]

/-- Witness for C2's amended statement at a concrete input: the
ball-plus-heater board of the counterexample. -/
theorem c2_move_priorities_witness :
    catMove c2cex0 0 =
      andThen (clearActor c2cex0 ⟨0, 2⟩) (fun s1 =>
        andThen (teleport s1 (.cat 0) ⟨0, 2⟩) (fun s2 =>
          andThen (catDistract s2 0 1) (fun s3 => catCheckSpaceHeater s3 0))) :=
  ((c2_move_priorities c2cex0 0
      { mkTabby 4 with attention := 4, restTime := 0, tile := some ⟨0, 3⟩ } ⟨0, 3⟩
      (by decide) (by decide) rfl).2.1) ⟨0, 2⟩ 0 (by decide) (by decide)

theorem andThen_of_none (r : StepRes) (f : GState → StepRes) (h : r.2 = none) :
    andThen r f = f r.1 := by
  obtain ⟨s0, e⟩ := r
  cases e with
  | none => rfl
  | some e0 => exact absurd h (by simp)

theorem modifyBall_cats (s : GState) (i : Nat) (f : BallState → BallState) :
    (modifyBall s i f).cats = s.cats := by
  unfold modifyBall
  split <;> rfl

theorem setActor_cats (s : GState) (p : Pos) (a : ActorId) :
    (setActor s p a).1.cats = s.cats := by
  unfold setActor
  split <;> rfl

theorem modifyCat_eq (s : GState) (ci : Nat) (c : CatState) (f : CatState → CatState)
    (hc : s.cats.get? ci = some c) :
    modifyCat s ci f = { s with cats := s.cats.set ci (f c) } := by
  unfold modifyCat
  rw [hc]

theorem catAttentionAt_congr {s t : GState} (h : t.cats = s.cats) (ci : Nat) :
    catAttentionAt t ci = catAttentionAt s ci := by
  unfold catAttentionAt
  rw [h]

theorem catAttentionAt_modifyCat (s : GState) (j ci : Nat) (f : CatState → CatState)
    (hf : ∀ d, (f d).attention = d.attention) :
    catAttentionAt (modifyCat s j f) ci = catAttentionAt s ci := by
  unfold modifyCat
  split
  · rename_i c hc2
    show catAttentionAt { s with cats := s.cats.set j (f c) } ci = catAttentionAt s ci
    unfold catAttentionAt
    by_cases hij : j = ci
    · subst hij
      show ((s.cats.set j (f c)).get? j).map _ = _
      rw [list_get?_set_self _ _ _ (by rw [hc2]; rfl), hc2]
      simp [hf]
    · show ((s.cats.set j (f c)).get? ci).map _ = _
      rw [list_get?_set_other _ _ _ _ hij]
  · rfl

theorem catAttentionAt_setActorTile (s : GState) (a : ActorId) (t : Option Pos) (ci : Nat) :
    catAttentionAt (setActorTile s a t) ci = catAttentionAt s ci := by
  cases a with
  | cat j => exact catAttentionAt_modifyCat s j ci _ (fun d => rfl)
  | contraption j => exact catAttentionAt_congr (modifyContraption_cats s j _) ci
  | ball j => exact catAttentionAt_congr (modifyBall_cats s j _) ci

theorem catAttentionAt_teleport (s : GState) (a : ActorId) (q : Pos) (ci : Nat) :
    catAttentionAt (teleport s a q).1 ci = catAttentionAt s ci := by
  unfold teleport andThen
  have hfc : (match actorTile s a with
      | some old => clearActor s old
      | none => (s, none)).1.cats = s.cats := by
    split
    · exact clearActor_cats s _
    · rfl
  split
  · rename_i s1 e1 heq
    rw [heq] at hfc
    exact catAttentionAt_congr hfc ci
  · rename_i s1 heq
    rw [heq] at hfc
    calc catAttentionAt (setActor (setActorTile s1 a (some q)) q a).1 ci
        = catAttentionAt (setActorTile s1 a (some q)) ci :=
          catAttentionAt_congr (setActor_cats _ _ _) ci
      _ = catAttentionAt s1 ci := catAttentionAt_setActorTile s1 a (some q) ci
      _ = catAttentionAt s ci := catAttentionAt_congr hfc ci

theorem actorTile_cat_eq (s : GState) (ci : Nat) (c : CatState)
    (hc : s.cats.get? ci = some c) : actorTile s (.cat ci) = c.tile := by
  unfold actorTile
  dsimp only
  rw [hc]

theorem clearActor_eq (s : GState) (p : Pos) (a : ActorId) (h : s.occ p = some a) :
    clearActor s p = (setOcc s p none, none) := by
  unfold clearActor
  rw [h]

theorem removeFromBoard_cat_eq (s : GState) (ci : Nat) (c : CatState) (p : Pos)
    (hc : s.cats.get? ci = some c) (ht : c.tile = some p) (ho : (s.occ p).isSome) :
    removeFromBoard s (.cat ci) = (setActorTile (setOcc s p none) (.cat ci) none, none) := by
  unfold removeFromBoard
  rw [actorTile_cat_eq s ci c hc, ht]
  dsimp only
  obtain ⟨a, ha⟩ := Option.isSome_iff_exists.mp ho
  rw [clearActor_eq s p a ha]
  rfl

theorem actorTile_setActorTile_cat (s : GState) (ci : Nat) (t : Option Pos)
    (h : (s.cats.get? ci).isSome) : actorTile (setActorTile s (.cat ci) t) (.cat ci) = t := by
  obtain ⟨c, hc⟩ := Option.isSome_iff_exists.mp h
  unfold setActorTile
  dsimp only
  rw [modifyCat_eq s ci c _ hc]
  unfold actorTile
  dsimp only
  rw [list_get?_set_self _ _ _ (by rw [hc]; rfl)]

theorem baseDistract_one (s : GState) (ci : Nat) (c : CatState) (p : Pos)
    (hc : s.cats.get? ci = some c) (ht : c.tile = some p) (ha : 1 ≤ c.attention)
    (hocc : s.occ p = some (.cat ci)) :
    (baseDistract s ci 1).2 = none ∧
    catAttentionAt (baseDistract s ci 1).1 ci = some (c.attention - 1) ∧
    (2 ≤ c.attention → baseDistract s ci 1 =
      (modifyCat s ci (fun d => { d with attention := d.attention - 1 }), none)) ∧
    (c.attention = 1 → actorTile (baseDistract s ci 1).1 (.cat ci) = none) := by
  have hbd : baseDistract s ci 1 =
      (if c.attention - 1 ≤ 0 then
        removeFromBoard
          (modifyCat s ci (fun d => { d with attention := 0, restTime := d.neededRestTime }))
          (.cat ci)
      else (modifyCat s ci (fun d => { d with attention := d.attention - 1 }), none)) := by
    unfold baseDistract
    rw [if_neg (by norm_num), hc]
  by_cases hA : c.attention - 1 ≤ 0
  · have hA1 : c.attention = 1 := by omega
    have hmc := modifyCat_eq s ci c
      (fun d => { d with attention := 0, restTime := d.neededRestTime }) hc
    have hset : ((modifyCat s ci
          (fun d => { d with attention := 0, restTime := d.neededRestTime })).cats.get? ci)
        = some { c with attention := 0, restTime := c.neededRestTime } := by
      rw [hmc]
      exact list_get?_set_self _ _ _ (by rw [hc]; rfl)
    have hrm : baseDistract s ci 1 =
        (setActorTile
          (setOcc (modifyCat s ci
            (fun d => { d with attention := 0, restTime := d.neededRestTime })) p none)
          (.cat ci) none, none) := by
      rw [hbd, if_pos hA]
      refine removeFromBoard_cat_eq _ ci
        ({ c with attention := 0, restTime := c.neededRestTime }) p hset ht ?_
      rw [hmc]
      show (s.occ p).isSome
      rw [hocc]
      rfl
    rw [hrm]
    refine ⟨rfl, ?_, ?_, ?_⟩
    · rw [catAttentionAt_setActorTile]
      have hcg : catAttentionAt (setOcc (modifyCat s ci
            (fun d => { d with attention := 0, restTime := d.neededRestTime })) p none) ci
          = catAttentionAt (modifyCat s ci
            (fun d => { d with attention := 0, restTime := d.neededRestTime })) ci :=
        catAttentionAt_congr rfl ci
      rw [hcg]
      unfold catAttentionAt
      rw [hset]
      simp [hA1]
    · intro h2
      omega
    · intro h1
      refine actorTile_setActorTile_cat _ ci none ?_
      show ((modifyCat s ci
        (fun d => { d with attention := 0, restTime := d.neededRestTime })).cats.get? ci).isSome
      rw [hset]
      rfl
  · rw [hbd, if_neg hA]
    have hmc := modifyCat_eq s ci c (fun d => { d with attention := d.attention - 1 }) hc
    refine ⟨rfl, ?_, fun h2 => rfl, fun h1 => absurd (by omega : c.attention - 1 ≤ 0) hA⟩
    rw [hmc]
    unfold catAttentionAt
    dsimp only
    rw [list_get?_set_self _ _ _ (by rw [hc]; rfl)]
    rfl

theorem modifyContraption_eq (s : GState) (i : Nat) (c : ContraptionState)
    (f : ContraptionState → ContraptionState) (hc : s.contraptions.get? i = some c) :
    modifyContraption s i f = { s with contraptions := s.contraptions.set i (f c) } := by
  unfold modifyContraption
  rw [hc]

theorem modifyBall_eq (s : GState) (i : Nat) (b : BallState)
    (f : BallState → BallState) (hb : s.balls.get? i = some b) :
    modifyBall s i f = { s with balls := s.balls.set i (f b) } := by
  unfold modifyBall
  rw [hb]

theorem actorTile_setOcc (s : GState) (p : Pos) (v : Option ActorId) (a : ActorId) :
    actorTile (setOcc s p v) a = actorTile s a := rfl

theorem actorLive_of_tile_some (s : GState) (a : ActorId) (p : Pos)
    (h : actorTile s a = some p) : actorLive s a := by
  cases a with
  | cat i =>
    unfold actorTile at h
    unfold actorLive
    dsimp only at h ⊢
    rcases hg : s.cats.get? i with _ | c
    · rw [hg] at h
      simp at h
    · rfl
  | contraption i =>
    unfold actorTile at h
    unfold actorLive
    dsimp only at h ⊢
    rcases hg : s.contraptions.get? i with _ | c
    · rw [hg] at h
      simp at h
    · rfl
  | ball i =>
    unfold actorTile at h
    unfold actorLive
    dsimp only at h ⊢
    rcases hg : s.balls.get? i with _ | c
    · rw [hg] at h
      simp at h
    · rfl

theorem actorTile_setActorTile_self (s : GState) (a : ActorId) (t : Option Pos)
    (h : actorLive s a) : actorTile (setActorTile s a t) a = t := by
  cases a with
  | cat i =>
    obtain ⟨c, hc⟩ := Option.isSome_iff_exists.mp h
    unfold setActorTile
    dsimp only
    rw [modifyCat_eq s i c _ hc]
    unfold actorTile
    dsimp only
    rw [list_get?_set_self _ _ _ (by rw [hc]; rfl)]
  | contraption i =>
    obtain ⟨c, hc⟩ := Option.isSome_iff_exists.mp h
    unfold setActorTile
    dsimp only
    rw [modifyContraption_eq s i c _ hc]
    unfold actorTile
    dsimp only
    rw [list_get?_set_self _ _ _ (by rw [hc]; rfl)]
  | ball i =>
    obtain ⟨c, hc⟩ := Option.isSome_iff_exists.mp h
    unfold setActorTile
    dsimp only
    rw [modifyBall_eq s i c _ hc]
    unfold actorTile
    dsimp only
    rw [list_get?_set_self _ _ _ (by rw [hc]; rfl)]

theorem actorTile_setActorTile_other (s : GState) (a b : ActorId) (t : Option Pos)
    (hne : b ≠ a) : actorTile (setActorTile s a t) b = actorTile s b := by
  cases a with
  | cat i =>
    cases b with
    | cat j =>
      have hij : i ≠ j := fun hh => hne (by rw [hh])
      unfold setActorTile
      dsimp only
      rcases hg : s.cats.get? i with _ | c
      · unfold modifyCat
        rw [hg]
      · rw [modifyCat_eq s i c _ hg]
        unfold actorTile
        dsimp only
        rw [list_get?_set_other _ _ _ _ hij]
    | contraption j =>
      unfold setActorTile
      dsimp only
      rcases hg : s.cats.get? i with _ | c
      · unfold modifyCat
        rw [hg]
      · rw [modifyCat_eq s i c _ hg]
        rfl
    | ball j =>
      unfold setActorTile
      dsimp only
      rcases hg : s.cats.get? i with _ | c
      · unfold modifyCat
        rw [hg]
      · rw [modifyCat_eq s i c _ hg]
        rfl
  | contraption i =>
    cases b with
    | cat j =>
      unfold setActorTile
      dsimp only
      rcases hg : s.contraptions.get? i with _ | c
      · unfold modifyContraption
        rw [hg]
      · rw [modifyContraption_eq s i c _ hg]
        rfl
    | contraption j =>
      have hij : i ≠ j := fun hh => hne (by rw [hh])
      unfold setActorTile
      dsimp only
      rcases hg : s.contraptions.get? i with _ | c
      · unfold modifyContraption
        rw [hg]
      · rw [modifyContraption_eq s i c _ hg]
        unfold actorTile
        dsimp only
        rw [list_get?_set_other _ _ _ _ hij]
    | ball j =>
      unfold setActorTile
      dsimp only
      rcases hg : s.contraptions.get? i with _ | c
      · unfold modifyContraption
        rw [hg]
      · rw [modifyContraption_eq s i c _ hg]
        rfl
  | ball i =>
    cases b with
    | cat j =>
      unfold setActorTile
      dsimp only
      rcases hg : s.balls.get? i with _ | c
      · unfold modifyBall
        rw [hg]
      · rw [modifyBall_eq s i c _ hg]
        rfl
    | contraption j =>
      unfold setActorTile
      dsimp only
      rcases hg : s.balls.get? i with _ | c
      · unfold modifyBall
        rw [hg]
      · rw [modifyBall_eq s i c _ hg]
        rfl
    | ball j =>
      have hij : i ≠ j := fun hh => hne (by rw [hh])
      unfold setActorTile
      dsimp only
      rcases hg : s.balls.get? i with _ | c
      · unfold modifyBall
        rw [hg]
      · rw [modifyBall_eq s i c _ hg]
        unfold actorTile
        dsimp only
        rw [list_get?_set_other _ _ _ _ hij]
theorem setActorTile_occ (s : GState) (a : ActorId) (t : Option Pos) :
    (setActorTile s a t).occ = s.occ := by
  cases a with
  | cat i =>
    unfold setActorTile modifyCat
    dsimp only
    split <;> rfl
  | contraption i =>
    unfold setActorTile modifyContraption
    dsimp only
    split <;> rfl
  | ball i =>
    unfold setActorTile modifyBall
    dsimp only
    split <;> rfl

theorem teleport_ok (s : GState) (a : ActorId) (q p0 : Pos)
    (hT : actorTile s a = some p0) (hO : (s.occ p0).isSome)
    (hne : p0 ≠ q) (hE : s.occ q = none) :
    teleport s a q = (setOcc (setActorTile (setOcc s p0 none) a (some q)) q (some a), none) := by
  unfold teleport
  rw [hT]
  dsimp only
  obtain ⟨b, hb⟩ := Option.isSome_iff_exists.mp hO
  rw [clearActor_eq s p0 b hb]
  rw [andThen_of_none _ _ rfl]
  unfold setActor
  have hocc2 : (setActorTile (setOcc s p0 none) a (some q)).occ q = none := by
    rw [setActorTile_occ]
    show Function.update s.occ p0 none q = none
    rw [Function.update_noteq (fun hh => hne hh.symm), hE]
  rw [hocc2]

theorem teleport_detached (s : GState) (a : ActorId) (q : Pos)
    (hT : actorTile s a = none) (hE : s.occ q = none) :
    teleport s a q = (setOcc (setActorTile s a (some q)) q (some a), none) := by
  unfold teleport
  rw [hT]
  rw [andThen_of_none _ _ rfl]
  unfold setActor
  have hocc2 : (setActorTile s a (some q)).occ q = none := by
    rw [setActorTile_occ, hE]
  rw [hocc2]

theorem dir_clear_ball (s : GState) (q : Pos) (b0 : Nat) (X : ActorId → Prop)
    (h1 : Dir1Except s X) (h2 : occupantBacklinks s) (hq : s.occ q = some (.ball b0)) :
    Dir1Except (setOcc s q none) (fun a => X a ∨ a = .ball b0) ∧
    occupantBacklinks (setOcc s q none) := by
  constructor
  · intro a hna p hp
    rw [actorTile_setOcc] at hp
    have hxa : ¬ X a := fun hh => hna (Or.inl hh)
    have hab : a ≠ .ball b0 := fun hh => hna (Or.inr hh)
    have hoa := h1 a hxa p hp
    show Function.update s.occ q none p = some a
    by_cases hpq : p = q
    · subst hpq
      rw [hoa] at hq
      exact absurd (Option.some.inj hq) hab
    · rw [Function.update_noteq hpq]
      exact hoa
  · intro p a hpa
    rw [actorTile_setOcc]
    by_cases hpq : p = q
    · subst hpq
      have : Function.update s.occ p none p = some a := hpa
      rw [Function.update_same] at this
      cases this
    · have heq : Function.update s.occ q none p = some a := hpa
      rw [Function.update_noteq hpq] at heq
      exact h2 p a heq

theorem dir_teleport_on (s : GState) (a0 : ActorId) (q p0 : Pos) (X : ActorId → Prop)
    (h1 : Dir1Except s X) (h2 : occupantBacklinks s)
    (hT : actorTile s a0 = some p0) (hO : s.occ p0 = some a0)
    (hne : p0 ≠ q) (hE : s.occ q = none) :
    Dir1Except (teleport s a0 q).1 X ∧ occupantBacklinks (teleport s a0 q).1 ∧
    (teleport s a0 q).2 = none := by
  rw [teleport_ok s a0 q p0 hT (by rw [hO]; rfl) hne hE]
  have hlive : actorLive (setOcc s p0 none) a0 := actorLive_of_tile_some _ a0 p0 hT
  have htSelf : actorTile (setActorTile (setOcc s p0 none) a0 (some q)) a0 = some q :=
    actorTile_setActorTile_self _ a0 (some q) hlive
  have htOther : ∀ b, b ≠ a0 →
      actorTile (setActorTile (setOcc s p0 none) a0 (some q)) b = actorTile s b := by
    intro b hb
    rw [actorTile_setActorTile_other _ a0 b _ hb, actorTile_setOcc]
  have hoccEq : (setActorTile (setOcc s p0 none) a0 (some q)).occ
      = Function.update s.occ p0 none := setActorTile_occ _ a0 _
  refine ⟨?_, ?_, rfl⟩
  · intro a hna p hp
    rw [actorTile_setOcc] at hp
    show Function.update (setActorTile (setOcc s p0 none) a0 (some q)).occ q (some a0) p
      = some a
    by_cases hba : a = a0
    · subst hba
      rw [htSelf] at hp
      have hpq : p = q := (Option.some.inj hp).symm
      subst hpq
      rw [Function.update_same]
    · rw [htOther a hba] at hp
      have hoa := h1 a hna p hp
      have hp0 : p ≠ p0 := by
        intro hh
        subst hh
        rw [hoa] at hO
        exact hba (Option.some.inj hO)
      have hpq : p ≠ q := by
        intro hh
        subst hh
        rw [hoa] at hE
        cases hE
      rw [Function.update_noteq hpq, hoccEq, Function.update_noteq hp0]
      exact hoa
  · intro p a hpa
    rw [actorTile_setOcc]
    have hpa2 : Function.update
        (setActorTile (setOcc s p0 none) a0 (some q)).occ q (some a0) p = some a := hpa
    by_cases hpq : p = q
    · subst hpq
      rw [Function.update_same] at hpa2
      have haa : a = a0 := (Option.some.inj hpa2).symm
      subst haa
      exact htSelf
    · rw [Function.update_noteq hpq, hoccEq] at hpa2
      by_cases hpp : p = p0
      · subst hpp
        rw [Function.update_same] at hpa2
        cases hpa2
      · rw [Function.update_noteq hpp] at hpa2
        have hta := h2 p a hpa2
        by_cases hba : a = a0
        · subst hba
          rw [hT] at hta
          exact absurd (Option.some.inj hta) (fun hh => hpp hh.symm)
        · rw [htOther a hba]
          exact hta

theorem dir_teleport_off (s : GState) (a0 : ActorId) (q : Pos) (X : ActorId → Prop)
    (h1 : Dir1Except s X) (h2 : occupantBacklinks s)
    (hT : actorTile s a0 = none) (hlive : actorLive s a0) (hE : s.occ q = none) :
    Dir1Except (teleport s a0 q).1 X ∧ occupantBacklinks (teleport s a0 q).1 ∧
    (teleport s a0 q).2 = none := by
  rw [teleport_detached s a0 q hT hE]
  have htSelf : actorTile (setActorTile s a0 (some q)) a0 = some q :=
    actorTile_setActorTile_self s a0 (some q) hlive
  have htOther : ∀ b, b ≠ a0 →
      actorTile (setActorTile s a0 (some q)) b = actorTile s b := by
    intro b hb
    rw [actorTile_setActorTile_other s a0 b _ hb]
  have hoccEq : (setActorTile s a0 (some q)).occ = s.occ := setActorTile_occ s a0 _
  refine ⟨?_, ?_, rfl⟩
  · intro a hna p hp
    rw [actorTile_setOcc] at hp
    show Function.update (setActorTile s a0 (some q)).occ q (some a0) p = some a
    by_cases hba : a = a0
    · subst hba
      rw [htSelf] at hp
      have hpq : p = q := (Option.some.inj hp).symm
      subst hpq
      rw [Function.update_same]
    · rw [htOther a hba] at hp
      have hoa := h1 a hna p hp
      have hpq : p ≠ q := by
        intro hh
        subst hh
        rw [hoa] at hE
        cases hE
      rw [Function.update_noteq hpq, hoccEq]
      exact hoa
  · intro p a hpa
    rw [actorTile_setOcc]
    have hpa2 : Function.update (setActorTile s a0 (some q)).occ q (some a0) p
        = some a := hpa
    by_cases hpq : p = q
    · subst hpq
      rw [Function.update_same] at hpa2
      have haa : a = a0 := (Option.some.inj hpa2).symm
      subst haa
      exact htSelf
    · rw [Function.update_noteq hpq, hoccEq] at hpa2
      have hta := h2 p a hpa2
      by_cases hba : a = a0
      · subst hba
        rw [hT] at hta
        cases hta
      · rw [htOther a hba]
        exact hta

theorem dir_remove_actor (s : GState) (a0 : ActorId) (p0 : Pos) (X : ActorId → Prop)
    (h1 : Dir1Except s X) (h2 : occupantBacklinks s)
    (hT : actorTile s a0 = some p0) (hO : s.occ p0 = some a0) :
    Dir1Except (setActorTile (setOcc s p0 none) a0 none) X ∧
    occupantBacklinks (setActorTile (setOcc s p0 none) a0 none) := by
  have hlive : actorLive (setOcc s p0 none) a0 := actorLive_of_tile_some _ a0 p0 hT
  have htSelf : actorTile (setActorTile (setOcc s p0 none) a0 none) a0 = none :=
    actorTile_setActorTile_self _ a0 none hlive
  have htOther : ∀ b, b ≠ a0 →
      actorTile (setActorTile (setOcc s p0 none) a0 none) b = actorTile s b := by
    intro b hb
    rw [actorTile_setActorTile_other _ a0 b _ hb, actorTile_setOcc]
  have hoccEq : (setActorTile (setOcc s p0 none) a0 none).occ
      = Function.update s.occ p0 none := setActorTile_occ _ a0 _
  constructor
  · intro a hna p hp
    rw [hoccEq]
    by_cases hba : a = a0
    · subst hba
      rw [htSelf] at hp
      cases hp
    · rw [htOther a hba] at hp
      have hoa := h1 a hna p hp
      have hpp : p ≠ p0 := by
        intro hh
        subst hh
        rw [hoa] at hO
        exact hba (Option.some.inj hO)
      rw [Function.update_noteq hpp]
      exact hoa
  · intro p a hpa
    rw [hoccEq] at hpa
    by_cases hpp : p = p0
    · subst hpp
      rw [Function.update_same] at hpa
      cases hpa
    · rw [Function.update_noteq hpp] at hpa
      have hta := h2 p a hpa
      by_cases hba : a = a0
      · subst hba
        rw [hT] at hta
        exact absurd (Option.some.inj hta) (fun hh => hpp hh.symm)
      · rw [htOther a hba]
        exact hta

theorem dir_modify_cat_keepTile (s : GState) (i : Nat) (f : CatState → CatState)
    (hf : ∀ d, (f d).tile = d.tile) (a : ActorId) :
    actorTile (modifyCat s i f) a = actorTile s a := by
  rcases hg : s.cats.get? i with _ | c
  · unfold modifyCat
    rw [hg]
  · rw [modifyCat_eq s i c f hg]
    cases a with
    | cat j =>
      by_cases hij : i = j
      · subst hij
        unfold actorTile
        dsimp only
        rw [list_get?_set_self _ _ _ (by rw [hg]; rfl), hg]
        exact hf c


      · unfold actorTile
        dsimp only
        rw [list_get?_set_other _ _ _ _ hij]
    | contraption j => rfl
    | ball j => rfl

theorem dir_modify_contraption_keepTile (s : GState) (i : Nat)
    (f : ContraptionState → ContraptionState)
    (hf : ∀ d, (f d).tile = d.tile) (a : ActorId) :
    actorTile (modifyContraption s i f) a = actorTile s a := by
  rcases hg : s.contraptions.get? i with _ | c
  · unfold modifyContraption
    rw [hg]
  · rw [modifyContraption_eq s i c f hg]
    cases a with
    | contraption j =>
      by_cases hij : i = j
      · subst hij
        unfold actorTile
        dsimp only
        rw [list_get?_set_self _ _ _ (by rw [hg]; rfl), hg]
        exact hf c
      · unfold actorTile
        dsimp only
        rw [list_get?_set_other _ _ _ _ hij]
    | cat j => rfl
    | ball j => rfl

theorem dir_congr (s t : GState) (X : ActorId → Prop)
    (hocc : t.occ = s.occ) (htile : ∀ a, actorTile t a = actorTile s a)
    (h1 : Dir1Except s X) (h2 : occupantBacklinks s) :
    Dir1Except t X ∧ occupantBacklinks t := by
  constructor
  · intro a hna p hp
    rw [htile a] at hp
    rw [hocc]
    exact h1 a hna p hp
  · intro p a hpa
    rw [hocc] at hpa
    rw [htile a]
    exact h2 p a hpa

theorem list_mem_of_get? {α : Type} (l : List α) (i : Nat) (x : α)
    (h : l.get? i = some x) : x ∈ l := by
  induction l generalizing i with
  | nil => cases h
  | cons a t ih =>
    cases i with
    | zero =>
      have hax : a = x := Option.some.inj h
      rw [← hax]
      exact List.mem_cons_self a t
    | succ j => exact List.mem_cons_of_mem a (ih j h)

theorem list_mem_set {α : Type} (l : List α) (i : Nat) (y x : α)
    (h : x ∈ l.set i y) : x ∈ l ∨ x = y := by
  induction l generalizing i with
  | nil => exact Or.inl h
  | cons a t ih =>
    cases i with
    | zero =>
      rcases List.mem_cons.mp h with h1 | h1
      · exact Or.inr h1
      · exact Or.inl (List.mem_cons_of_mem a h1)
    | succ j =>
      rcases List.mem_cons.mp h with h1 | h1
      · exact Or.inl (h1 ▸ List.mem_cons_self a t)
      · rcases ih j h1 with h2 | h2
        · exact Or.inl (List.mem_cons_of_mem a h2)
        · exact Or.inr h2

theorem modifyCat_occ (s : GState) (i : Nat) (f : CatState → CatState) :
    (modifyCat s i f).occ = s.occ := by
  unfold modifyCat
  split <;> rfl

theorem modifyContraption_occ (s : GState) (i : Nat) (f : ContraptionState → ContraptionState) :
    (modifyContraption s i f).occ = s.occ := by
  unfold modifyContraption
  split <;> rfl

theorem isBallish_not_cat {X : ActorId → Prop} (hX : IsBallish X) (i : Nat) :
    ¬ X (.cat i) := by
  intro hx
  obtain ⟨j, hj⟩ := hX _ hx
  cases hj

theorem isBallish_not_contraption {X : ActorId → Prop} (hX : IsBallish X) (i : Nat) :
    ¬ X (.contraption i) := by
  intro hx
  obtain ⟨j, hj⟩ := hX _ hx
  cases hj

theorem dir1_of_equiv {s : GState} {X Y : ActorId → Prop}
    (hxy : ∀ a, X a ↔ Y a) (h : Dir1Except s X) : Dir1Except s Y := by
  intro a hna p hp
  exact h a (fun hh => hna ((hxy a).mp hh)) p hp

theorem dir_removeFromBoard (s : GState) (a : ActorId) (X : ActorId → Prop)
    (hnX : ¬ X a) (h1 : Dir1Except s X) (h2 : occupantBacklinks s) :
    Dir1Except (removeFromBoard s a).1 X ∧ occupantBacklinks (removeFromBoard s a).1 := by
  unfold removeFromBoard
  rcases hT : actorTile s a with _ | p0
  · exact ⟨h1, h2⟩
  · dsimp only
    have hO : s.occ p0 = some a := h1 a hnX p0 hT
    rw [clearActor_eq s p0 a hO, andThen_of_none _ _ rfl]
    exact dir_remove_actor s a p0 X h1 h2 hT hO

theorem dir_baseDistract (s : GState) (ci : Nat) (n : Int) (X : ActorId → Prop)
    (hX : IsBallish X) (h1 : Dir1Except s X) (h2 : occupantBacklinks s) :
    Dir1Except (baseDistract s ci n).1 X ∧ occupantBacklinks (baseDistract s ci n).1 := by
  unfold baseDistract
  split
  · exact ⟨h1, h2⟩
  · split
    · exact ⟨h1, h2⟩
    · rename_i c hgc
      split
      · have hmt := dir_modify_cat_keepTile s ci
          (fun d => { d with attention := 0, restTime := d.neededRestTime }) (fun d => rfl)
        have hd := dir_congr _ _ X (modifyCat_occ s ci _) hmt h1 h2
        exact dir_removeFromBoard _ (.cat ci) X (isBallish_not_cat hX ci) hd.1 hd.2
      · have hmt := dir_modify_cat_keepTile s ci
          (fun d => { d with attention := d.attention - n }) (fun d => rfl)
        exact dir_congr _ _ X (modifyCat_occ s ci _) hmt h1 h2

theorem dir_catDistract (s : GState) (ci : Nat) (n : Int) (X : ActorId → Prop)
    (hX : IsBallish X) (h1 : Dir1Except s X) (h2 : occupantBacklinks s) :
    Dir1Except (catDistract s ci n).1 X ∧ occupantBacklinks (catDistract s ci n).1 := by
  unfold catDistract
  split
  · exact ⟨h1, h2⟩
  · split
    · -- calico
      rcases hb : baseDistract s ci n with ⟨s1, e1⟩
      have hbd := dir_baseDistract s ci n X hX h1 h2
      rw [hb] at hbd
      cases e1 with
      | some e0 => exact hbd
      | none =>
        dsimp only [andThen] at hbd ⊢
        rcases ht1 : actorTile s1 (.cat ci) with _ | p2
        · exact hbd
        · dsimp only
          rcases hta : tileAbove p2 with _ | q
          · exact hbd
          · dsimp only
            by_cases hqe : s1.occ q = none
            · rw [if_pos hqe]
              have hO1 : s1.occ p2 = some (.cat ci) :=
                hbd.1 _ (isBallish_not_cat hX ci) p2 ht1
              have hne : p2 ≠ q := by
                intro hh
                rw [hh, hqe] at hO1
                cases hO1
              have hres := dir_teleport_on s1 (.cat ci) q p2 X hbd.1 hbd.2 ht1 hO1 hne hqe
              exact ⟨hres.1, hres.2.1⟩
            · rw [if_neg hqe]
              exact hbd
    · exact dir_baseDistract s ci n X hX h1 h2

theorem dir_heaterBelowBlock (s : GState) (ci : Nat) (p : Pos) (X : ActorId → Prop)
    (hX : IsBallish X) (h1 : Dir1Except s X) (h2 : occupantBacklinks s) :
    Dir1Except (heaterBelowBlock s ci p).1 X ∧
    occupantBacklinks (heaterBelowBlock s ci p).1 := by
  unfold heaterBelowBlock
  repeat' split
  all_goals
    first
      | exact dir_catDistract s ci 1 X hX h1 h2
      | exact ⟨h1, h2⟩

theorem dir_catCheckSpaceHeater (s : GState) (ci : Nat) (X : ActorId → Prop)
    (hX : IsBallish X) (h1 : Dir1Except s X) (h2 : occupantBacklinks s) :
    Dir1Except (catCheckSpaceHeater s ci).1 X ∧
    occupantBacklinks (catCheckSpaceHeater s ci).1 := by
  unfold catCheckSpaceHeater
  repeat' split
  all_goals
    first
      | exact dir_catDistract s ci 1 X hX h1 h2
      | exact dir_heaterBelowBlock s ci _ X hX h1 h2
      | exact ⟨h1, h2⟩

theorem dirPair_andThen {r : StepRes} {f : GState → StepRes} {X : ActorId → Prop}
    (h : Dir1Except r.1 X ∧ occupantBacklinks r.1)
    (hf : ∀ t, Dir1Except t X → occupantBacklinks t →
      Dir1Except (f t).1 X ∧ occupantBacklinks (f t).1) :
    Dir1Except (andThen r f).1 X ∧ occupantBacklinks (andThen r f).1 := by
  obtain ⟨s0, e⟩ := r
  cases e with
  | none => exact hf s0 h.1 h.2
  | some e0 => exact h

theorem dir_baseInteract (s : GState) (i : Nat) (X : ActorId → Prop)
    (hX : IsBallish X) (h1 : Dir1Except s X) (h2 : occupantBacklinks s) :
    Dir1Except (baseInteract s i).1 X ∧ occupantBacklinks (baseInteract s i).1 := by
  unfold baseInteract
  rcases hT : actorTile s (.contraption i) with _ | p
  · exact ⟨h1, h2⟩
  · dsimp only
    have hO : s.occ p = some (.contraption i) :=
      h1 _ (isBallish_not_contraption hX i) p hT
    rw [clearActor_eq s p _ hO, andThen_of_none _ _ rfl]
    have hd := dir_remove_actor s (.contraption i) p X h1 h2 hT hO
    unfold removeContraption
    split
    · exact dir_congr _ _ X rfl (fun a => rfl) hd.1 hd.2
    · exact hd

theorem dir_contraptionInteract (s : GState) (i : Nat) (X : ActorId → Prop)
    (hX : IsBallish X) (h1 : Dir1Except s X) (h2 : occupantBacklinks s) :
    Dir1Except (contraptionInteract s i).1 X ∧
    occupantBacklinks (contraptionInteract s i).1 := by
  unfold contraptionInteract
  split
  · exact ⟨h1, h2⟩
  · split
    · have hmt := dir_modify_contraption_keepTile s i
        (fun d => { d with uses := d.uses - 1 }) (fun d => rfl)
      have hd := dir_congr _ _ X (modifyContraption_occ s i _) hmt h1 h2
      split
      · exact dir_baseInteract _ i X hX hd.1 hd.2
      · exact hd
    · exact dir_baseInteract s i X hX h1 h2

theorem tileExit_ne (p q : Pos) (h : tileExit p = some q) : p ≠ q := by
  unfold tileExit at h
  by_cases h0 : p.col = 0
  · rw [if_pos h0] at h
    cases h
  · rw [if_neg h0] at h
    intro hh
    have h3 := congrArg Pos.col (Option.some.inj h)
    rw [← hh] at h3
    dsimp only at h3
    omega

theorem ballish_or_equiv (b0 : Nat) :
    ∀ a : ActorId, ((∃ i, a = ActorId.ball i) ∨ a = ActorId.ball b0)
      ↔ (∃ i, a = ActorId.ball i) := by
  intro a
  constructor
  · intro h
    rcases h with h | h
    · exact h
    · exact ⟨b0, h⟩
  · exact Or.inl

theorem dir_loseGame (s : GState) (X : ActorId → Prop)
    (h1 : Dir1Except s X) (h2 : occupantBacklinks s) :
    Dir1Except (loseGame s).1 X ∧ occupantBacklinks (loseGame s).1 := by
  unfold loseGame destroyGM
  split
  · exact ⟨h1, h2⟩
  · exact ⟨h1, h2⟩

theorem dir_catMove (s : GState) (ci : Nat)
    (hC : ConsistentX s) : ConsistentX (catMove s ci).1 := by
  obtain ⟨h1, h2⟩ := hC
  unfold catMove
  split
  · exact ⟨h1, h2⟩
  · rename_i c hgc
    split
    · exact ⟨h1, h2⟩
    · rename_i p htc
      split
      · split
        · exact ⟨h1, h2⟩
        · exact dir_loseGame s _ h1 h2
      · rename_i nxt hexit
        split
        · -- ball ahead
          rename_i b honxt
          have hcl := dir_clear_ball s nxt b _ h1 h2 honxt
          have h1' : Dir1Except (setOcc s nxt none) (fun a => ∃ i, a = ActorId.ball i) :=
            dir1_of_equiv (ballish_or_equiv b) hcl.1
          rw [clearActor_eq s nxt _ honxt, andThen_of_none _ _ rfl]
          have hnotball : ¬ (∃ i, (ActorId.cat ci) = ActorId.ball i) := by
            rintro ⟨j, hj⟩
            cases hj
          have hne : p ≠ nxt := tileExit_ne p nxt hexit
          have hT : actorTile (setOcc s nxt none) (.cat ci) = some p := by
            rw [actorTile_setOcc, actorTile_cat_eq s ci c hgc, htc]
          have hO : (setOcc s nxt none).occ p = some (.cat ci) := by
            have hOp : s.occ p = some (.cat ci) :=
              h1 _ hnotball p (by rw [actorTile_cat_eq s ci c hgc, htc])
            show Function.update s.occ nxt none p = some (.cat ci)
            rw [Function.update_noteq hne]
            exact hOp
          have hE : (setOcc s nxt none).occ nxt = none := by
            show Function.update s.occ nxt none nxt = none
            rw [Function.update_same]
          have htp := dir_teleport_on (setOcc s nxt none) (.cat ci) nxt p _
            h1' hcl.2 hT hO hne hE
          refine dirPair_andThen ⟨htp.1, htp.2.1⟩ ?_
          intro u hu1 hu2
          refine dirPair_andThen (dir_catDistract u ci 1 _ (fun a ha => ha) hu1 hu2) ?_
          intro v hv1 hv2
          exact dir_catCheckSpaceHeater v ci _ (fun a ha => ha) hv1 hv2
        · -- empty ahead
          rename_i honxt
          have hnotball : ¬ (∃ i, (ActorId.cat ci) = ActorId.ball i) := by
            rintro ⟨j, hj⟩
            cases hj
          have hT : actorTile s (.cat ci) = some p := by
            rw [actorTile_cat_eq s ci c hgc, htc]
          have hO : s.occ p = some (.cat ci) := h1 _ hnotball p hT
          have hne : p ≠ nxt := tileExit_ne p nxt hexit
          have htp := dir_teleport_on s (.cat ci) nxt p _ h1 h2 hT hO hne honxt
          refine dirPair_andThen ⟨htp.1, htp.2.1⟩ ?_
          intro t ht1 ht2
          exact dir_catCheckSpaceHeater t ci _ (fun a ha => ha) ht1 ht2
        · rename_i j honxt
          exact dir_contraptionInteract s j _ (fun a ha => ha) h1 h2
        · exact ⟨h1, h2⟩

theorem catDistract_one (s : GState) (ci : Nat) (c : CatState) (p : Pos)
    (hc : s.cats.get? ci = some c) (ht : c.tile = some p) (ha : 1 ≤ c.attention)
    (hocc : s.occ p = some (.cat ci)) :
    (catDistract s ci 1).2 = none ∧
    catAttentionAt (catDistract s ci 1).1 ci = some (c.attention - 1) := by
  have hbase := baseDistract_one s ci c p hc ht ha hocc
  have hcd : catDistract s ci 1 =
      (match c.kind with
       | .calico => andThen (baseDistract s ci 1) (fun s1 =>
          match actorTile s1 (.cat ci) with
          | none => (s1, none)
          | some p2 =>
            match tileAbove p2 with
            | none => (s1, none)
            | some q => if s1.occ q = none then teleport s1 (.cat ci) q else (s1, none))
       | _ => baseDistract s ci 1) := by
    unfold catDistract
    rw [hc]
  rcases hk : c.kind with _ | _ | _
  · rw [hcd, hk]
    exact ⟨hbase.1, hbase.2.1⟩
  · rw [hcd, hk]
    dsimp only
    rw [andThen_of_none _ _ hbase.1]
    by_cases hA2 : 2 ≤ c.attention
    · have hbeq := hbase.2.2.1 hA2
      have hs1t : actorTile (baseDistract s ci 1).1 (.cat ci) = some p := by
        rw [hbeq]
        dsimp only
        rw [modifyCat_eq s ci c _ hc]
        rw [actorTile_cat_eq _ ci _ (list_get?_set_self s.cats ci _ (by rw [hc]; rfl))]
        exact ht
      rw [hs1t]
      dsimp only
      rcases hta : tileAbove p with _ | q
      · exact ⟨rfl, hbase.2.1⟩
      · dsimp only
        by_cases hqe : (baseDistract s ci 1).1.occ q = none
        · rw [if_pos hqe]
          have hq2 : q = ⟨p.row - 1, p.col⟩ ∧ ¬ p.row = 0 := by
            unfold tileAbove at hta
            by_cases hr : p.row = 0
            · rw [if_pos hr] at hta
              cases hta
            · rw [if_neg hr] at hta
              exact ⟨(Option.some.inj hta).symm, hr⟩
          have hne : p ≠ q := by
            intro hh
            have h3 := congrArg Pos.row hh
            rw [hq2.1] at h3
            dsimp only at h3
            have hr := hq2.2
            omega
          have hOs : ((baseDistract s ci 1).1.occ p).isSome := by
            rw [hbeq]
            dsimp only
            rw [modifyCat_eq s ci c _ hc]
            show (s.occ p).isSome
            rw [hocc]
            rfl
          constructor
          · rw [teleport_ok _ (.cat ci) q p hs1t hOs hne hqe]
          · rw [catAttentionAt_teleport]
            exact hbase.2.1
        · rw [if_neg hqe]
          exact ⟨rfl, hbase.2.1⟩
    · have hA1 : c.attention = 1 := by omega
      rw [hbase.2.2.2 hA1]
      exact ⟨rfl, hbase.2.1⟩
  · rw [hcd, hk]
    exact ⟨hbase.1, hbase.2.1⟩

theorem heaterBelowBlock_eq (s : GState) (ci : Nat) (p : Pos) :
    heaterBelowBlock s ci p =
      (if (isHeaterAt s (if p.row + 1 < s.laneCount then some ⟨p.row + 1, p.col⟩ else none)
          || isHeaterAt s (if p.row + 1 < s.laneCount ∧ p.col + 1 < LANE_WIDTH then
                some ⟨p.row + 1, p.col + 1⟩ else none)
          || isHeaterAt s (if p.row + 1 < s.laneCount ∧ 1 ≤ p.col then
                some ⟨p.row + 1, p.col - 1⟩ else none)) then
        catDistract s ci 1
      else (s, none)) := by
  unfold heaterBelowBlock
  by_cases hb : p.row + 1 < s.laneCount
  · have e9 : (if p.row + 1 < s.laneCount ∧ p.col + 1 < LANE_WIDTH then
          some (⟨p.row + 1, p.col + 1⟩ : Pos) else none)
        = tileEntrance ⟨p.row + 1, p.col⟩ := by
      unfold tileEntrance
      by_cases h1 : p.col + 1 < LANE_WIDTH
      · rw [if_pos ⟨hb, h1⟩, if_pos h1]
      · rw [if_neg (fun hh => h1 hh.2), if_neg h1]
    have e10 : (if p.row + 1 < s.laneCount ∧ 1 ≤ p.col then
          some (⟨p.row + 1, p.col - 1⟩ : Pos) else none)
        = tileExit ⟨p.row + 1, p.col⟩ := by
      unfold tileExit
      by_cases h1 : p.col = 0
      · rw [if_neg (by omega), if_pos h1]
      · rw [if_pos ⟨hb, by omega⟩, if_neg h1]
    have hbb : tileBelow s.laneCount p = some ⟨p.row + 1, p.col⟩ := by
      simp [tileBelow, hb]
    rw [hbb]
    dsimp only
    rw [e9, e10, if_pos hb, if_or_fold, if_or_fold]
  · have hbb : tileBelow s.laneCount p = none := by
      simp [tileBelow, hb]
    rw [hbb]
    dsimp only
    have h8 : (if p.row + 1 < s.laneCount then some (⟨p.row + 1, p.col⟩ : Pos) else none)
        = none := if_neg hb
    have h9 : (if p.row + 1 < s.laneCount ∧ p.col + 1 < LANE_WIDTH then
        some (⟨p.row + 1, p.col + 1⟩ : Pos) else none) = none := if_neg (fun hh => hb hh.1)
    have h10 : (if p.row + 1 < s.laneCount ∧ 1 ≤ p.col then
        some (⟨p.row + 1, p.col - 1⟩ : Pos) else none) = none := if_neg (fun hh => hb hh.1)
    rw [h8, h9, h10]
    simp [isHeaterAt_none]

/-- C6: the passive-range check after a successful move equals a first-match
scan over the claim's coverage positions in the claim's order — own lane
offsets +1, +2, −1, −2, then the lane above at offsets 0, +1, −1, then the
lane below at 0, +1, −1 — reducing attention by exactly 1 when at least one
passive-range device occupies a covered tile (a single hit even when
several qualify) and by 0 otherwise. -/
theorem c6_passive_range (s : GState) (ci : Nat) (c : CatState) (p : Pos)
    (hc : s.cats.get? ci = some c) (ht : c.tile = some p)
    (ha : 1 ≤ c.attention) (hocc : s.occ p = some (.cat ci)) :
    catCheckSpaceHeater s ci =
      (if (claimHeaterScanOrder s.laneCount p).any (fun t => isHeaterAt s t) then
        catDistract s ci 1 else (s, none)) ∧
    ((claimHeaterScanOrder s.laneCount p).any (fun t => isHeaterAt s t) = true →
      (catCheckSpaceHeater s ci).2 = none ∧
      catAttentionAt (catCheckSpaceHeater s ci).1 ci = some (c.attention - 1)) ∧
    ((claimHeaterScanOrder s.laneCount p).any (fun t => isHeaterAt s t) = false →
      catCheckSpaceHeater s ci = (s, none)) := by
  have chain_one : ∀ (f : Pos → Option Pos) (x : Pos), chain f (some x) 1 = f x := by
    intro f x
    show chain f (some x) (0 + 1) = f x
    rw [chain]
    cases hfx : f x <;> rfl
  have chain_none : ∀ (f : Pos → Option Pos) (n : Nat), chain f none n = none := by
    intro f n
    cases n <;> rfl
  have chain_two : ∀ (f : Pos → Option Pos) (x : Pos), chain f (some x) 2 = chain f (f x) 1 := by
    intro f x
    show chain f (some x) (1 + 1) = chain f (f x) 1
    rw [chain]
  have e1 : (if p.col + 1 < LANE_WIDTH then some (⟨p.row, p.col + 1⟩ : Pos) else none)
      = chain tileEntrance (some p) 1 := by
    rw [chain_one]
    unfold tileEntrance
    rfl
  have e2 : (if p.col + 2 < LANE_WIDTH then some (⟨p.row, p.col + 2⟩ : Pos) else none)
      = chain tileEntrance (some p) 2 := by
    rw [chain_two]
    by_cases h1 : p.col + 1 < LANE_WIDTH
    · have hstep : tileEntrance p = some ⟨p.row, p.col + 1⟩ := by
        unfold tileEntrance
        rw [if_pos h1]
      rw [hstep, chain_one]
      show _ = tileEntrance ⟨p.row, p.col + 1⟩
      unfold tileEntrance
      rfl
    · have hstep : tileEntrance p = none := by
        unfold tileEntrance
        rw [if_neg h1]
      rw [hstep, chain_none]
      exact if_neg (by omega)
  have e3 : (if 1 ≤ p.col then some (⟨p.row, p.col - 1⟩ : Pos) else none)
      = chain tileExit (some p) 1 := by
    rw [chain_one]
    unfold tileExit
    by_cases h0 : p.col = 0
    · rw [if_pos h0, if_neg (by omega)]
    · rw [if_neg h0, if_pos (by omega)]
  have e4 : (if 2 ≤ p.col then some (⟨p.row, p.col - 2⟩ : Pos) else none)
      = chain tileExit (some p) 2 := by
    rw [chain_two]
    by_cases h0 : p.col = 0
    · have hstep : tileExit p = none := by
        unfold tileExit
        rw [if_pos h0]
      rw [hstep, chain_none]
      exact if_neg (by omega)
    · have hstep : tileExit p = some ⟨p.row, p.col - 1⟩ := by
        unfold tileExit
        rw [if_neg h0]
      rw [hstep, chain_one]
      show _ = tileExit ⟨p.row, p.col - 1⟩
      unfold tileExit
      by_cases h1 : p.col - 1 = 0
      · rw [if_pos h1, if_neg (by omega)]
      · rw [if_neg h1, if_pos (by omega), Nat.sub_sub]
  have hmain : catCheckSpaceHeater s ci =
      (if (claimHeaterScanOrder s.laneCount p).any (fun t => isHeaterAt s t) then
        catDistract s ci 1 else (s, none)) := by
    unfold catCheckSpaceHeater
    rw [hc]
    dsimp only
    rw [ht]
    simp only [claimHeaterScanOrder, List.any_cons, List.any_nil, Bool.or_false]
    rw [e1, e2, e3, e4]
    by_cases hr : p.row = 0
    · have hta : tileAbove p = none := by
        simp [tileAbove, hr]
      rw [hta]
      dsimp only
      have e5 : (if 1 ≤ p.row then some (⟨p.row - 1, p.col⟩ : Pos) else none) = none :=
        if_neg (by omega)
      have e6 : (if 1 ≤ p.row ∧ p.col + 1 < LANE_WIDTH then
          some (⟨p.row - 1, p.col + 1⟩ : Pos) else none) = none :=
        if_neg (fun hh => by omega)
      have e7 : (if 1 ≤ p.row ∧ 1 ≤ p.col then
          some (⟨p.row - 1, p.col - 1⟩ : Pos) else none) = none :=
        if_neg (fun hh => by omega)
      rw [e5, e6, e7]
      simp only [isHeaterAt_none, Bool.false_or]
      rw [heaterBelowBlock_eq]
      rw [if_or_fold, if_or_fold, if_or_fold, if_or_fold]
      simp only [Bool.or_assoc]
    · have hta : tileAbove p = some ⟨p.row - 1, p.col⟩ := by
        simp [tileAbove, hr]
      rw [hta]
      dsimp only
      have e5 : (if 1 ≤ p.row then some (⟨p.row - 1, p.col⟩ : Pos) else none)
          = some ⟨p.row - 1, p.col⟩ := if_pos (by omega)
      have e6 : (if 1 ≤ p.row ∧ p.col + 1 < LANE_WIDTH then
          some (⟨p.row - 1, p.col + 1⟩ : Pos) else none) = tileEntrance ⟨p.row - 1, p.col⟩ := by
        unfold tileEntrance
        by_cases h1 : p.col + 1 < LANE_WIDTH
        · rw [if_pos ⟨by omega, h1⟩, if_pos h1]
        · rw [if_neg (fun hh => h1 hh.2), if_neg h1]
      have e7 : (if 1 ≤ p.row ∧ 1 ≤ p.col then
          some (⟨p.row - 1, p.col - 1⟩ : Pos) else none) = tileExit ⟨p.row - 1, p.col⟩ := by
        unfold tileExit
        by_cases h1 : p.col = 0
        · rw [if_neg (fun hh => by omega), if_pos h1]
        · rw [if_pos ⟨by omega, by omega⟩, if_neg h1]
      rw [e5, e6, e7]
      rw [heaterBelowBlock_eq]
      rw [if_or_fold, if_or_fold, if_or_fold, if_or_fold, if_or_fold, if_or_fold, if_or_fold]
      simp only [Bool.or_assoc]
  refine ⟨hmain, ?_, ?_⟩
  · intro hAny
    rw [hmain, if_pos hAny]
    exact catDistract_one s ci c p hc ht ha hocc
  · intro hAny
    rw [hmain, if_neg (by rw [hAny]; exact Bool.false_ne_true)]

/-- Witness for C6 at a concrete input: a tabby at (0,2) with a heater at
(0,1), own-lane offset −1. -/
theorem c6_passive_range_witness :
    catCheckSpaceHeater c6w0 0 =
      (if (claimHeaterScanOrder c6w0.laneCount ⟨0, 2⟩).any (fun t => isHeaterAt c6w0 t) then
        catDistract c6w0 0 1 else (c6w0, none)) :=
  (c6_passive_range c6w0 0
    { mkTabby 4 with attention := 4, restTime := 0, tile := some ⟨0, 2⟩ } ⟨0, 2⟩
    (by decide) (by decide) (by decide) (by decide)).1

/-- C3: when a kitten's first move reaches the goal edge, the loss is
signalled (exactly one `lose_game` call, the game marked ended) but the
kitten's second move then calls `GameManager.manager()` on the destroyed
singleton and the round-pass dies with an `AssertionError`; the tabby after
the kitten in creation order is indeed never processed (its rest timer is
untouched), but by crash rather than by the clean abort the claim
describes. -/
theorem c3_kitten_goal_second_move_crash :
    (gameEndRound c3s0).2 = some .assertionError ∧
    (gameEndRound c3s0).1.loseCalls = 1 ∧
    (gameEndRound c3s0).1.gameEnded = true ∧
    ((gameEndRound c3s0).1.cats.get? 1).map (fun c => c.restTime) = some 5 := by
  decide

/-- C2, counterexample: the claim's obstacle-token branch says the unit
"picks it up, moves there, and loses 1 attention", but after the pickup the
passive-range check runs and a heater within range of the new tile costs a
second point: from attention 4 the unit ends at 2, not 3. -/
theorem c2_counterexample :
    c2cex0.occ ⟨0, 2⟩ = some (.ball 0) ∧
    catAttentionAt c2cex0 0 = some 4 ∧
    (catMove c2cex0 0).2 = none ∧
    catAttentionAt (catMove c2cex0 0).1 0 = some 2 ∧
    ¬ catAttentionAt (catMove c2cex0 0).1 0 = some 3 := by
  decide

/-- C5, counterexample: the constructor accepts an initial rest time of 0
(its assertion only requires `≥ 0`), but the resulting unit is off board
with `restTime == 0`, violating the claimed "restTime == 0 iff on board";
the first `rest()` then drives the timer to −1. -/
theorem c5_counterexample :
    catCtorOk 4 4 0 ∧
    ¬ claimCatInvariant (mkTabby 0) ∧
    ((catEndRound { freshState 1 with cats := [mkTabby 0] } 0).1.cats.get? 0).map
        (fun c => c.restTime) = some (-1) := by
  refine ⟨by norm_num [catCtorOk], ?_, by decide⟩
  intro h
  have h2 := h.2.2
  simp [mkTabby, mkCat] at h2

/-- C8: device placement is a no-op with no charge unless the clicked tile
is not a lane-entrance tile (equivalently, it has an `entrance()` link), is
empty, and the cost is affordable; when all conditions hold it deducts
exactly the cost, constructs the device, appends it to the active-device
registry, and attaches it to the tile. -/
theorem c8_placement (s : GState) (p : Pos) (k : ContraptionKind)
    (hd : s.destroyed = false) (hp : p.col < LANE_WIDTH) :
    ((tileEntrance p).isSome ↔ p ≠ laneEntrance p.row) ∧
    (¬((tileEntrance p).isSome ∧ s.occ p = none ∧ costOf k ≤ s.batteries) →
      tileClicked s p k = (s, none)) ∧
    ((tileEntrance p).isSome → s.occ p = none → costOf k ≤ s.batteries →
      (tileClicked s p k).2 = none ∧
      (tileClicked s p k).1.batteries = s.batteries - costOf k ∧
      (tileClicked s p k).1.registry = s.registry ++ [s.contraptions.length] ∧
      (tileClicked s p k).1.contraptions
        = s.contraptions ++ [{ mkContraption k with tile := some p }] ∧
      (tileClicked s p k).1.occ p = some (.contraption s.contraptions.length)) := by
  obtain ⟨r, c⟩ := p
  refine ⟨?_, ?_, ?_⟩
  · simp only [tileEntrance, laneEntrance, LANE_WIDTH] at hp ⊢
    constructor
    · intro h hEq
      have hc : c = 8 - 1 := congrArg Pos.col hEq
      subst hc
      simp at h
    · intro h
      have hc : c ≠ 7 := by
        intro hc
        exact h (by simp [hc])
      rw [if_pos (by omega)]
      rfl
  · intro hno
    unfold tileClicked
    rw [if_neg (by simp [hd]), if_neg hno]
  · intro h1 h2 h3
    have hcost := costOf_nonneg k
    unfold tileClicked
    rw [if_neg (by simp [hd]), if_pos ⟨h1, h2, h3⟩]
    simp only [spendBatteries, andThen]
    rw [if_neg (by omega)]
    simp only [addContraption, teleport, actorTile, mkContraption, setActorTile,
      modifyContraption, setActor, setOcc, clearActor, andThen,
      list_get?_append_length, list_set_append_length, h2, Function.update_same]
    exact ⟨trivial, trivial, trivial, trivial, trivial⟩

/-- Witness for C8 at a concrete input: a snack dispenser placed on tile
(0,3) of a fresh one-lane game. -/
theorem c8_placement_witness :
    ((freshState 1).destroyed = false ∧ (⟨0, 3⟩ : Pos).col < LANE_WIDTH) ∧
    (tileClicked (freshState 1) ⟨0, 3⟩ .snack).2 = none ∧
    (tileClicked (freshState 1) ⟨0, 3⟩ .snack).1.batteries
      = (freshState 1).batteries - costOf .snack ∧
    (tileClicked (freshState 1) ⟨0, 3⟩ .snack).1.occ ⟨0, 3⟩ = some (.contraption 0) :=
  ⟨⟨rfl, by decide⟩,
    ((c8_placement (freshState 1) ⟨0, 3⟩ .snack rfl (by decide)).2.2 (by decide) rfl
      (by decide)).1,
    ((c8_placement (freshState 1) ⟨0, 3⟩ .snack rfl (by decide)).2.2 (by decide) rfl
      (by decide)).2.1,
    ((c8_placement (freshState 1) ⟨0, 3⟩ .snack rfl (by decide)).2.2 (by decide) rfl
      (by decide)).2.2.2.2⟩

/-- C9, counterexample: the full-lane scanner does not stop at a non-unit
occupied tile: with a snack dispenser between the laser and a cat, the
laser's end-of-round still distracts the cat behind it (attention 4 → 3),
refuting "never distracts a unit that lies behind a non-unit occupant". -/
theorem c9_counterexample :
    c9cex0.occ ⟨0, 3⟩ = some (.contraption 1) ∧
    (c9cex0.contraptions.get? 1).map (fun c => c.kind) = some .snack ∧
    catAttentionAt c9cex0 0 = some 4 ∧
    (contraptionEndRound c9cex0 0).2 = none ∧
    catAttentionAt (contraptionEndRound c9cex0 0).1 0 = some 3 := by
  decide


theorem takeRand_occ (s : GState) : (takeRand s).2.occ = s.occ := by
  unfold takeRand
  split <;> rfl

theorem takeRand_cats (s : GState) : (takeRand s).2.cats = s.cats := by
  unfold takeRand
  split <;> rfl

theorem takeRand_tile (s : GState) (a : ActorId) :
    actorTile (takeRand s).2 a = actorTile s a := by
  unfold takeRand
  split
  · rfl
  · cases a <;> rfl

theorem list_getD_mem {α : Type} (l : List α) (n : Nat) (d : α)
    (h : n < l.length) : l.getD n d ∈ l := by
  induction l generalizing n with
  | nil => exact absurd h (Nat.not_lt_zero n)
  | cons a t ih =>
    cases n with
    | zero =>
      rw [List.getD_cons_zero]
      exact List.mem_cons_self a t
    | succ m =>
      rw [List.getD_cons_succ]
      exact List.mem_cons_of_mem a (ih m (Nat.lt_of_succ_lt_succ h))

theorem dir_catRest (s : GState) (ci : Nat)
    (hC : ConsistentX s) : ConsistentX (catRest s ci).1 := by
  obtain ⟨h1, h2⟩ := hC
  simp only [catRest]
  split
  · exact ⟨h1, h2⟩
  · rename_i c hgc
    split
    · split
      · exact dir_congr _ _ _ (modifyCat_occ s ci _)
          (dir_modify_cat_keepTile s ci _ (fun d => rfl)) h1 h2
      · split
        · have hA := dir_congr _ _ (fun a => ∃ i, a = ActorId.ball i)
            (modifyCat_occ s ci (fun d => { d with restTime := d.restTime - 1 }))
            (dir_modify_cat_keepTile s ci (fun d => { d with restTime := d.restTime - 1 })
              (fun d => rfl)) h1 h2
          exact dir_congr _ _ _ (modifyCat_occ _ ci _)
            (dir_modify_cat_keepTile _ ci _ (fun d => rfl)) hA.1 hA.2
        · rename_i hd tl heq
          set s1 := modifyCat s ci (fun d => { d with restTime := d.restTime - 1 }) with hs1
          set L := List.filterMap
            (fun i => if s1.occ (laneEntrance i) = none then some (laneEntrance i) else none)
            (List.range s1.laneCount) with hL
          set k1 := (takeRand s1).1 with hk1
          set kr2 := (takeRand s1).2 with hkr2
          set s3 := modifyCat kr2 ci (fun d => { d with attention := d.startingAttention }) with hs3
          set q := L.getD (k1 % L.length) ⟨0, 0⟩ with hq
          have g : Dir1Except s1 (fun a => ∃ i, a = ActorId.ball i) ∧ occupantBacklinks s1 :=
            dir_congr _ _ _
              (modifyCat_occ s ci (fun d => { d with restTime := d.restTime - 1 }))
              (dir_modify_cat_keepTile s ci (fun d => { d with restTime := d.restTime - 1 })
                (fun d => rfl)) h1 h2
          have k : Dir1Except kr2 (fun a => ∃ i, a = ActorId.ball i) ∧ occupantBacklinks kr2 :=
            dir_congr _ _ _ (takeRand_occ s1) (takeRand_tile s1) g.1 g.2
          have m : Dir1Except s3 (fun a => ∃ i, a = ActorId.ball i) ∧ occupantBacklinks s3 :=
            dir_congr _ _ _
              (modifyCat_occ kr2 ci (fun d => { d with attention := d.startingAttention }))
              (dir_modify_cat_keepTile kr2 ci (fun d => { d with attention := d.startingAttention })
                (fun d => rfl)) k.1 k.2
          have hLpos : 0 < L.length := by
            rw [heq]
            exact Nat.succ_pos _
          have hmem : q ∈ L := list_getD_mem L (k1 % L.length) ⟨0, 0⟩ (Nat.mod_lt _ hLpos)
          have hqE1 : s1.occ q = none := by
            rcases List.mem_filterMap.mp (hL ▸ hmem) with ⟨i, _, hf⟩
            by_cases he : s1.occ (laneEntrance i) = none
            · rw [if_pos he] at hf
              rw [← Option.some.inj hf]
              exact he
            · rw [if_neg he] at hf
              cases hf
          have hqE : s3.occ q = none := by
            show (modifyCat kr2 ci (fun d => { d with attention := d.startingAttention })).occ q = none
            rw [modifyCat_occ]
            show (takeRand s1).2.occ q = none
            rw [takeRand_occ]
            exact hqE1
          rcases hT3 : actorTile s3 (.cat ci) with _ | p
          · have hs1get : s1.cats.get? ci = some { c with restTime := c.restTime - 1 } := by
              show (modifyCat s ci (fun d => { d with restTime := d.restTime - 1 })).cats.get? ci = _
              rw [modifyCat_eq s ci c _ hgc]
              exact list_get?_set_self s.cats ci _ (by rw [hgc]; rfl)
            have hkr2get : kr2.cats.get? ci = some { c with restTime := c.restTime - 1 } := by
              show (takeRand s1).2.cats.get? ci = _
              rw [takeRand_cats]
              exact hs1get
            have hlive : actorLive s3 (.cat ci) := by
              show (s3.cats.get? ci).isSome = true
              show ((modifyCat kr2 ci
                (fun d => { d with attention := d.startingAttention })).cats.get? ci).isSome = true
              rw [modifyCat_eq kr2 ci _ _ hkr2get]
              rw [list_get?_set_self kr2.cats ci _ (by rw [hkr2get]; rfl)]
              rfl
            have htp := dir_teleport_off s3 (.cat ci) q _ m.1 m.2 hT3 hlive hqE
            exact ⟨htp.1, htp.2.1⟩
          · have hnb : ¬ (∃ i, (ActorId.cat ci) = ActorId.ball i) := by
              rintro ⟨j, hj⟩
              cases hj
            have hO : s3.occ p = some (.cat ci) := m.1 _ hnb p hT3
            have hne : p ≠ q := by
              intro hh
              rw [hh, hqE] at hO
              cases hO
            have htp := dir_teleport_on s3 (.cat ci) q p _ m.1 m.2 hT3 hO hne hqE
            exact ⟨htp.1, htp.2.1⟩
    · exact dir_congr _ _ _ (modifyCat_occ s ci _)
        (dir_modify_cat_keepTile s ci _ (fun d => rfl)) h1 h2

theorem dir_catEndRound (s : GState) (ci : Nat)
    (hC : ConsistentX s) : ConsistentX (catEndRound s ci).1 := by
  unfold catEndRound
  split
  · exact hC
  · split
    · split
      · show Dir1Except _ (fun a => ∃ i, a = ActorId.ball i) ∧ occupantBacklinks _
        refine dirPair_andThen (dir_catMove s ci hC) ?_
        intro t ht1 ht2
        split
        · exact dir_catMove t ci ⟨ht1, ht2⟩
        · exact ⟨ht1, ht2⟩
      · exact dir_catRest s ci hC
    · unfold baseCatEndRound
      split
      · exact dir_catMove s ci hC
      · exact dir_catRest s ci hC



theorem list_set_set {α : Type} (l : List α) (i : Nat) (x y : α) :
    (l.set i x).set i y = l.set i y := by
  induction l generalizing i with
  | nil => rfl
  | cons a t ih =>
    cases i with
    | zero => rfl
    | succ j =>
      show a :: (t.set j x).set j y = a :: t.set j y
      rw [ih]

theorem catsOK_congr {s t : GState} (h : t.cats = s.cats) (hOK : CatsOK s) : CatsOK t := by
  constructor
  · intro c hc
    exact hOK.1 c (h ▸ hc)
  · intro c hc
    exact hOK.2 c (h ▸ hc)

theorem catsOK_set {s t : GState} (i : Nat) (y : CatState)
    (hcats : t.cats = s.cats.set i y) (hOK : CatsOK s)
    (hy : claimCatInvariant y ∧ 1 ≤ y.startingAttention ∧ 1 ≤ y.neededRestTime) :
    CatsOK t := by
  constructor
  · intro c hc
    rcases list_mem_set _ i y c (hcats ▸ hc) with h1 | h1
    · exact hOK.1 c h1
    · rw [h1]
      exact hy.1
  · intro c hc
    rcases list_mem_set _ i y c (hcats ▸ hc) with h1 | h1
    · exact hOK.2 c h1
    · rw [h1]
      exact ⟨hy.2.1, hy.2.2⟩

theorem stateOK_congr {s t : GState} (hocc : t.occ = s.occ)
    (htile : ∀ a, actorTile t a = actorTile s a) (hcats : t.cats = s.cats)
    (h : StateOK s) : StateOK t :=
  ⟨dir_congr s t _ hocc htile h.1.1 h.1.2, catsOK_congr hcats h.2⟩

theorem stateOK_andThen {r : StepRes} {f : GState → StepRes}
    (h : StateOK r.1) (hf : ∀ t, StateOK t → StateOK (f t).1) :
    StateOK (andThen r f).1 := by
  obtain ⟨s0, e⟩ := r
  cases e with
  | none => exact hf s0 h
  | some e0 => exact h

theorem modifyCat_destroyed (s : GState) (i : Nat) (f : CatState → CatState) :
    (modifyCat s i f).destroyed = s.destroyed := by
  unfold modifyCat
  split <;> rfl

theorem loseGame_cats (s : GState) : (loseGame s).1.cats = s.cats := by
  unfold loseGame destroyGM
  split <;> rfl

theorem removeFromBoard_cat_cats_off (s : GState) (ci : Nat) (c : CatState)
    (hgc : s.cats.get? ci = some c) (htile : c.tile = none) :
    (removeFromBoard s (.cat ci)).1.cats = s.cats := by
  unfold removeFromBoard
  rw [actorTile_cat_eq s ci c hgc, htile]

theorem removeFromBoard_cat_cats_on (s : GState) (ci : Nat) (c : CatState) (p : Pos)
    (hgc : s.cats.get? ci = some c) (htile : c.tile = some p)
    (h1 : Dir1Except s (fun a => ∃ i, a = ActorId.ball i)) :
    (removeFromBoard s (.cat ci)).1.cats = s.cats.set ci { c with tile := none } := by
  unfold removeFromBoard
  rw [actorTile_cat_eq s ci c hgc, htile]
  dsimp only
  have hO : s.occ p = some (.cat ci) := by
    refine h1 _ ?_ p (by rw [actorTile_cat_eq s ci c hgc, htile])
    rintro ⟨j, hj⟩
    cases hj
  rw [clearActor_eq s p _ hO, andThen_of_none _ _ rfl]
  show (modifyCat (setOcc s p none) ci (fun d => { d with tile := none })).cats = _
  rw [modifyCat_eq (setOcc s p none) ci c (fun d => { d with tile := none }) hgc]
  rfl

theorem claimCatInvariant_off (c : CatState) (ht : c.tile = none)
    (ha : c.attention = 0) (hr : 1 ≤ c.restTime) : claimCatInvariant c := by
  refine ⟨Or.inr ⟨ht, by omega, ha⟩, ?_, ?_⟩
  · rintro ⟨⟨h1, _⟩, _⟩
    rw [ht] at h1
    simp at h1
  · constructor
    · intro hz
      omega
    · intro hsome
      rw [ht] at hsome
      simp at hsome

theorem claimCatInvariant_on (c : CatState) (ht : c.tile.isSome)
    (ha : 1 ≤ c.attention) (hr : c.restTime = 0) : claimCatInvariant c := by
  refine ⟨Or.inl ⟨ht, ha⟩, ?_, ?_⟩
  · rintro ⟨_, ⟨h2, _⟩⟩
    rw [h2] at ht
    simp at ht
  · exact ⟨fun _ => ht, fun _ => hr⟩

theorem claimCatInvariant_on_facts (c : CatState) (hinv : claimCatInvariant c) (p : Pos)
    (ht : c.tile = some p) : 1 ≤ c.attention ∧ c.restTime = 0 := by
  rcases hinv.1 with hon | hoff
  · exact ⟨hon.2, hinv.2.2.mpr hon.1⟩
  · rw [ht] at hoff
    exact Option.noConfusion hoff.1

theorem claimCatInvariant_off_facts (c : CatState) (hinv : claimCatInvariant c)
    (ht : c.tile = none) : c.attention = 0 ∧ 1 ≤ c.restTime := by
  rcases hinv.1 with hon | hoff
  · rw [ht] at hon
    exact absurd hon.1 (by simp)
  · have hne : ¬ c.restTime = 0 := by
      intro hz
      have hs := hinv.2.2.mp hz
      rw [ht] at hs
      simp at hs
    have h0 := hoff.2.1
    exact ⟨hoff.2.2, by omega⟩

theorem invCats_baseDistract (s : GState) (ci : Nat) (n : Int) (hn : 0 ≤ n)
    (hCX : ConsistentX s) (hOK : CatsOK s) : CatsOK (baseDistract s ci n).1 := by
  unfold baseDistract
  split
  · exact hOK
  · split
    · exact hOK
    · rename_i c hgc
      have hmem : c ∈ s.cats := list_mem_of_get? _ _ _ hgc
      have hinv := hOK.1 c hmem
      have hwf := hOK.2 c hmem
      split
      · rename_i hle
        have hdir : Dir1Except (modifyCat s ci (fun d =>
            { d with attention := 0, restTime := d.neededRestTime }))
            (fun a => ∃ i, a = ActorId.ball i) :=
          (dir_congr _ _ _
            (modifyCat_occ s ci (fun d => { d with attention := 0, restTime := d.neededRestTime }))
            (dir_modify_cat_keepTile s ci
              (fun d => { d with attention := 0, restTime := d.neededRestTime })
              (fun d => rfl)) hCX.1 hCX.2).1
        have htg : (modifyCat s ci (fun d =>
            { d with attention := 0, restTime := d.neededRestTime })).cats.get? ci
            = some { c with attention := 0, restTime := c.neededRestTime } := by
          rw [modifyCat_eq s ci c _ hgc]
          exact list_get?_set_self s.cats ci _ (by rw [hgc]; rfl)
        have htcats : (modifyCat s ci (fun d =>
            { d with attention := 0, restTime := d.neededRestTime })).cats
            = s.cats.set ci { c with attention := 0, restTime := c.neededRestTime } := by
          rw [modifyCat_eq s ci c _ hgc]
        rcases htile : c.tile with _ | p
        · have hcats := removeFromBoard_cat_cats_off _ ci _ htg htile
          rw [htcats] at hcats
          refine catsOK_set ci _ hcats hOK ⟨?_, hwf⟩
          exact claimCatInvariant_off _ htile rfl hwf.2
        · have hcats := removeFromBoard_cat_cats_on _ ci _ p htg htile hdir
          rw [htcats, list_set_set] at hcats
          refine catsOK_set ci _ hcats hOK ⟨?_, hwf⟩
          exact claimCatInvariant_off _ rfl rfl hwf.2
      · rename_i hgt
        have hcats : (modifyCat s ci (fun d => { d with attention := d.attention - n })).cats
            = s.cats.set ci { c with attention := c.attention - n } := by
          rw [modifyCat_eq s ci c _ hgc]
        refine catsOK_set ci _ hcats hOK ⟨?_, hwf⟩
        rcases htile : c.tile with _ | p
        · exfalso
          have hfacts := claimCatInvariant_off_facts c hinv htile
          omega
        · have hfacts := claimCatInvariant_on_facts c hinv p htile
          refine claimCatInvariant_on _ rfl ?_ ?_
          · show 1 ≤ c.attention - n
            omega
          · show c.restTime = 0
            exact hfacts.2

theorem inv_baseDistract (s : GState) (ci : Nat) (n : Int) (hn : 0 ≤ n)
    (h : StateOK s) : StateOK (baseDistract s ci n).1 :=
  ⟨dir_baseDistract s ci n _ (fun _ ha => ha) h.1.1 h.1.2,
   invCats_baseDistract s ci n hn h.1 h.2⟩

theorem inv_catDistract (s : GState) (ci : Nat) (n : Int) (hn : 0 ≤ n)
    (h : StateOK s) : StateOK (catDistract s ci n).1 := by
  unfold catDistract
  split
  · exact h
  · rename_i c hgc
    split
    · refine stateOK_andThen (inv_baseDistract s ci n hn h) ?_
      intro t ht
      split
      · exact ht
      · rename_i p hTt
        split
        · exact ht
        · rename_i q habove
          split
          · rename_i hEq
            rcases hgt : t.cats.get? ci with _ | c1
            · exfalso
              unfold actorTile at hTt
              dsimp only at hTt
              rw [hgt] at hTt
              exact Option.noConfusion hTt
            · have htile1 : c1.tile = some p := by
                rw [actorTile_cat_eq t ci c1 hgt] at hTt
                exact hTt
              have hO : t.occ p = some (.cat ci) := by
                refine ht.1.1 _ ?_ p hTt
                rintro ⟨j, hj⟩
                cases hj
              have hne : p ≠ q := by
                intro hh
                rw [hh, hEq] at hO
                exact Option.noConfusion hO
              constructor
              · exact ⟨(dir_teleport_on t (.cat ci) q p _ ht.1.1 ht.1.2 hTt hO hne hEq).1,
                       (dir_teleport_on t (.cat ci) q p _ ht.1.1 ht.1.2 hTt hO hne hEq).2.1⟩
              · have hres := teleport_ok t (.cat ci) q p hTt (by rw [hO]; rfl) hne hEq
                have hcats : (teleport t (.cat ci) q).1.cats
                    = t.cats.set ci { c1 with tile := some q } := by
                  rw [hres]
                  show (modifyCat (setOcc t p none) ci (fun d => { d with tile := some q })).cats
                    = t.cats.set ci { c1 with tile := some q }
                  rw [modifyCat_eq (setOcc t p none) ci c1 (fun d => { d with tile := some q }) hgt]
                  rfl
                have hmem1 : c1 ∈ t.cats := list_mem_of_get? _ _ _ hgt
                have hfacts := claimCatInvariant_on_facts c1 (ht.2.1 c1 hmem1) p htile1
                refine catsOK_set ci _ hcats ht.2 ⟨?_, ht.2.2 c1 hmem1⟩
                exact claimCatInvariant_on _ rfl hfacts.1 hfacts.2
          · exact ht
    · exact inv_baseDistract s ci n hn h

theorem inv_heaterBelowBlock (s : GState) (ci : Nat) (p : Pos)
    (h : StateOK s) : StateOK (heaterBelowBlock s ci p).1 := by
  unfold heaterBelowBlock
  split
  · split
    · exact inv_catDistract s ci 1 (by decide) h
    · split
      · exact inv_catDistract s ci 1 (by decide) h
      · split
        · exact inv_catDistract s ci 1 (by decide) h
        · exact h
  · exact h

theorem inv_catCheckSpaceHeater (s : GState) (ci : Nat)
    (h : StateOK s) : StateOK (catCheckSpaceHeater s ci).1 := by
  unfold catCheckSpaceHeater
  split
  · exact h
  · split
    · exact inv_catDistract s ci 1 (by decide) h
    · split
      · exact inv_catDistract s ci 1 (by decide) h
      · split
        · exact inv_catDistract s ci 1 (by decide) h
        · split
          · exact inv_catDistract s ci 1 (by decide) h
          · split
            · exact h
            · split
              · split
                · exact inv_catDistract s ci 1 (by decide) h
                · split
                  · exact inv_catDistract s ci 1 (by decide) h
                  · split
                    · exact inv_catDistract s ci 1 (by decide) h
                    · exact inv_heaterBelowBlock s ci _ h
              · exact inv_heaterBelowBlock s ci _ h

theorem inv_catMove (s : GState) (ci : Nat)
    (h : StateOK s) : StateOK (catMove s ci).1 := by
  obtain ⟨hCX, hOK⟩ := h
  unfold catMove
  split
  · exact ⟨hCX, hOK⟩
  · rename_i c hgc
    split
    · exact ⟨hCX, hOK⟩
    · rename_i p htc
      split
      · split
        · exact ⟨hCX, hOK⟩
        · exact ⟨dir_loseGame s _ hCX.1 hCX.2, catsOK_congr (loseGame_cats s) hOK⟩
      · rename_i nxt hexit
        split
        · rename_i b honxt
          rw [clearActor_eq s nxt _ honxt, andThen_of_none _ _ rfl]
          have hcl := dir_clear_ball s nxt b _ hCX.1 hCX.2 honxt
          have h1' : Dir1Except (setOcc s nxt none) (fun a => ∃ i, a = ActorId.ball i) :=
            dir1_of_equiv (ballish_or_equiv b) hcl.1
          have hne : p ≠ nxt := tileExit_ne p nxt hexit
          have hT : actorTile (setOcc s nxt none) (.cat ci) = some p := by
            rw [actorTile_setOcc, actorTile_cat_eq s ci c hgc, htc]
          have hnotball : ¬ (∃ i, (ActorId.cat ci) = ActorId.ball i) := by
            rintro ⟨j, hj⟩
            cases hj
          have hO : (setOcc s nxt none).occ p = some (.cat ci) := by
            have hOp : s.occ p = some (.cat ci) :=
              hCX.1 _ hnotball p (by rw [actorTile_cat_eq s ci c hgc, htc])
            show Function.update s.occ nxt none p = some (.cat ci)
            rw [Function.update_noteq hne]
            exact hOp
          have hE : (setOcc s nxt none).occ nxt = none := by
            show Function.update s.occ nxt none nxt = none
            rw [Function.update_same]
          have htp := dir_teleport_on (setOcc s nxt none) (.cat ci) nxt p _ h1' hcl.2 hT hO hne hE
          have hres := teleport_ok (setOcc s nxt none) (.cat ci) nxt p hT (by rw [hO]; rfl) hne hE
          have hcats : (teleport (setOcc s nxt none) (.cat ci) nxt).1.cats
              = s.cats.set ci { c with tile := some nxt } := by
            rw [hres]
            show (modifyCat (setOcc (setOcc s nxt none) p none) ci
              (fun d => { d with tile := some nxt })).cats = _
            rw [modifyCat_eq (setOcc (setOcc s nxt none) p none) ci c
              (fun d => { d with tile := some nxt }) hgc]
            rfl
          have hfacts := claimCatInvariant_on_facts c (hOK.1 c (list_mem_of_get? _ _ _ hgc)) p htc
          have hok2 : StateOK (teleport (setOcc s nxt none) (.cat ci) nxt).1 := by
            refine ⟨⟨htp.1, htp.2.1⟩, ?_⟩
            refine catsOK_set ci _ hcats hOK ⟨?_, hOK.2 c (list_mem_of_get? _ _ _ hgc)⟩
            exact claimCatInvariant_on _ rfl hfacts.1 hfacts.2
          refine stateOK_andThen hok2 ?_
          intro u hu
          refine stateOK_andThen (inv_catDistract u ci 1 (by decide) hu) ?_
          intro v hv
          exact inv_catCheckSpaceHeater v ci hv
        · rename_i honxt
          have hnotball : ¬ (∃ i, (ActorId.cat ci) = ActorId.ball i) := by
            rintro ⟨j, hj⟩
            cases hj
          have hT : actorTile s (.cat ci) = some p := by
            rw [actorTile_cat_eq s ci c hgc, htc]
          have hO : s.occ p = some (.cat ci) := hCX.1 _ hnotball p hT
          have hne : p ≠ nxt := tileExit_ne p nxt hexit
          have htp := dir_teleport_on s (.cat ci) nxt p _ hCX.1 hCX.2 hT hO hne honxt
          have hres := teleport_ok s (.cat ci) nxt p hT (by rw [hO]; rfl) hne honxt
          have hcats : (teleport s (.cat ci) nxt).1.cats
              = s.cats.set ci { c with tile := some nxt } := by
            rw [hres]
            show (modifyCat (setOcc s p none) ci (fun d => { d with tile := some nxt })).cats = _
            rw [modifyCat_eq (setOcc s p none) ci c (fun d => { d with tile := some nxt }) hgc]
            rfl
          have hfacts := claimCatInvariant_on_facts c (hOK.1 c (list_mem_of_get? _ _ _ hgc)) p htc
          have hok2 : StateOK (teleport s (.cat ci) nxt).1 := by
            refine ⟨⟨htp.1, htp.2.1⟩, ?_⟩
            refine catsOK_set ci _ hcats hOK ⟨?_, hOK.2 c (list_mem_of_get? _ _ _ hgc)⟩
            exact claimCatInvariant_on _ rfl hfacts.1 hfacts.2
          refine stateOK_andThen hok2 ?_
          intro u hu
          exact inv_catCheckSpaceHeater u ci hu
        · rename_i j honxt
          exact ⟨dir_contraptionInteract s j _ (fun a ha => ha) hCX.1 hCX.2,
                 catsOK_congr (contraptionInteract_cats s j) hOK⟩
        · exact ⟨hCX, hOK⟩

theorem inv_catRest (s : GState) (ci : Nat)
    (hdes : s.destroyed = false) (hT : actorTile s (.cat ci) = none)
    (h : StateOK s) : StateOK (catRest s ci).1 := by
  obtain ⟨hCX, hOK⟩ := h
  simp only [catRest]
  split
  · exact ⟨hCX, hOK⟩
  · rename_i c hgc
    have htile : c.tile = none := by
      rw [actorTile_cat_eq s ci c hgc] at hT
      exact hT
    have hmem : c ∈ s.cats := list_mem_of_get? _ _ _ hgc
    have hofff := claimCatInvariant_off_facts c (hOK.1 c hmem) htile
    have hwf := hOK.2 c hmem
    have hCX1 : ConsistentX (modifyCat s ci (fun d => { d with restTime := d.restTime - 1 })) :=
      dir_congr _ _ _
        (modifyCat_occ s ci (fun d => { d with restTime := d.restTime - 1 }))
        (dir_modify_cat_keepTile s ci (fun d => { d with restTime := d.restTime - 1 })
          (fun d => rfl)) hCX.1 hCX.2
    have hs1cats : (modifyCat s ci (fun d => { d with restTime := d.restTime - 1 })).cats
        = s.cats.set ci { c with restTime := c.restTime - 1 } := by
      rw [modifyCat_eq s ci c (fun d => { d with restTime := d.restTime - 1 }) hgc]
    have hs1get : (modifyCat s ci (fun d => { d with restTime := d.restTime - 1 })).cats.get? ci
        = some { c with restTime := c.restTime - 1 } := by
      rw [hs1cats]
      exact list_get?_set_self s.cats ci _ (by rw [hgc]; rfl)
    split
    · rename_i hz
      split
      · rename_i hd
        rw [modifyCat_destroyed, hdes] at hd
        exact Bool.noConfusion hd
      · split
        · -- no empty lane: rest one more round
          refine ⟨?_, ?_⟩
          · exact dir_congr _ _ _
              (modifyCat_occ _ ci (fun d => { d with restTime := 1 }))
              (dir_modify_cat_keepTile _ ci (fun d => { d with restTime := 1 })
                (fun d => rfl)) hCX1.1 hCX1.2
          · have hcats : (modifyCat
                (modifyCat s ci (fun d => { d with restTime := d.restTime - 1 })) ci
                (fun d => { d with restTime := 1 })).cats
                = s.cats.set ci { c with restTime := 1 } := by
              rw [modifyCat_eq _ ci _ (fun d => { d with restTime := 1 }) hs1get]
              rw [hs1cats, list_set_set]
            refine catsOK_set ci _ hcats hOK ⟨?_, hwf⟩
            exact claimCatInvariant_off _ htile hofff.1 (le_refl 1)
        · rename_i hd tl heq
          set s1 := modifyCat s ci (fun d => { d with restTime := d.restTime - 1 }) with hs1
          set L := List.filterMap
            (fun i => if s1.occ (laneEntrance i) = none then some (laneEntrance i) else none)
            (List.range s1.laneCount) with hL
          set k1 := (takeRand s1).1 with hk1
          set kr2 := (takeRand s1).2 with hkr2
          set s3 := modifyCat kr2 ci (fun d => { d with attention := d.startingAttention }) with hs3
          set q := L.getD (k1 % L.length) ⟨0, 0⟩ with hq
          have k : Dir1Except kr2 (fun a => ∃ i, a = ActorId.ball i) ∧ occupantBacklinks kr2 :=
            dir_congr _ _ _ (takeRand_occ s1) (takeRand_tile s1) hCX1.1 hCX1.2
          have m : Dir1Except s3 (fun a => ∃ i, a = ActorId.ball i) ∧ occupantBacklinks s3 :=
            dir_congr _ _ _
              (modifyCat_occ kr2 ci (fun d => { d with attention := d.startingAttention }))
              (dir_modify_cat_keepTile kr2 ci (fun d => { d with attention := d.startingAttention })
                (fun d => rfl)) k.1 k.2
          have hLpos : 0 < L.length := by
            rw [heq]
            exact Nat.succ_pos _
          have hmemq : q ∈ L := list_getD_mem L (k1 % L.length) ⟨0, 0⟩ (Nat.mod_lt _ hLpos)
          have hqE1 : s1.occ q = none := by
            rcases List.mem_filterMap.mp (hL ▸ hmemq) with ⟨i, _, hf⟩
            by_cases he : s1.occ (laneEntrance i) = none
            · rw [if_pos he] at hf
              rw [← Option.some.inj hf]
              exact he
            · rw [if_neg he] at hf
              cases hf
          have hqE : s3.occ q = none := by
            show (modifyCat kr2 ci (fun d => { d with attention := d.startingAttention })).occ q = none
            rw [modifyCat_occ]
            show (takeRand s1).2.occ q = none
            rw [takeRand_occ]
            exact hqE1
          have hkr2get : kr2.cats.get? ci = some { c with restTime := c.restTime - 1 } := by
            show (takeRand s1).2.cats.get? ci = _
            rw [takeRand_cats]
            exact hs1get
          have hkr2cats : kr2.cats = s1.cats := by
            show (takeRand s1).2.cats = s1.cats
            exact takeRand_cats s1
          have hs3get : s3.cats.get? ci
              = some { c with attention := c.startingAttention, restTime := c.restTime - 1 } := by
            show (modifyCat kr2 ci
              (fun d => { d with attention := d.startingAttention })).cats.get? ci = _
            rw [modifyCat_eq kr2 ci _ (fun d => { d with attention := d.startingAttention }) hkr2get]
            rw [list_get?_set_self kr2.cats ci _ (by rw [hkr2get]; rfl)]
          have hs3cats : s3.cats = kr2.cats.set ci
              { c with attention := c.startingAttention, restTime := c.restTime - 1 } := by
            show (modifyCat kr2 ci (fun d => { d with attention := d.startingAttention })).cats = _
            rw [modifyCat_eq kr2 ci _ (fun d => { d with attention := d.startingAttention }) hkr2get]
          have hT3 : actorTile s3 (.cat ci) = none := by
            rw [actorTile_cat_eq s3 ci _ hs3get]
            exact htile
          have hlive : actorLive s3 (.cat ci) := by
            show (s3.cats.get? ci).isSome = true
            rw [hs3get]
            rfl
          have htp := dir_teleport_off s3 (.cat ci) q _ m.1 m.2 hT3 hlive hqE
          refine ⟨⟨htp.1, htp.2.1⟩, ?_⟩
          have hcats : (teleport s3 (.cat ci) q).1.cats
              = s.cats.set ci { c with attention := c.startingAttention, restTime := c.restTime - 1, tile := some q } := by
            rw [teleport_detached s3 (.cat ci) q hT3 hqE]
            show (modifyCat s3 ci (fun d => { d with tile := some q })).cats = _
            rw [modifyCat_eq s3 ci _ (fun d => { d with tile := some q }) hs3get]
            show s3.cats.set ci _ = _
            rw [hs3cats, hkr2cats, hs1cats, list_set_set, list_set_set]
          refine catsOK_set ci _ hcats hOK ⟨?_, hwf⟩
          exact claimCatInvariant_on _ rfl hwf.1 hz
    · rename_i hnz
      refine ⟨hCX1, ?_⟩
      refine catsOK_set ci _ hs1cats hOK ⟨?_, hwf⟩
      refine claimCatInvariant_off _ htile hofff.1 ?_
      show 1 ≤ c.restTime - 1
      have h1r := hofff.2
      omega

theorem inv_catEndRound (s : GState) (ci : Nat) (hdes : s.destroyed = false)
    (h : StateOK s) : StateOK (catEndRound s ci).1 := by
  unfold catEndRound
  split
  · exact h
  · split
    · split
      · refine stateOK_andThen (inv_catMove s ci h) ?_
        intro t ht
        split
        · exact inv_catMove t ci ht
        · exact ht
      · rename_i hTs
        exact inv_catRest s ci hdes hTs h
    · unfold baseCatEndRound
      split
      · exact inv_catMove s ci h
      · rename_i hTs
        exact inv_catRest s ci hdes hTs h

theorem claimCatInvariant_mkCat (k : CatKind) (srt : Int) (h1 : 1 ≤ srt) :
    claimCatInvariant (mkCatOfKind k srt) := by
  cases k <;> exact claimCatInvariant_off _ rfl rfl h1

theorem actorTile_c5w_none (a : ActorId) : actorTile c5w a = none := by
  cases a with
  | cat i =>
    cases i with
    | zero => rfl
    | succ j => rfl
  | contraption i => rfl
  | ball i => rfl

theorem consistentX_c5w : ConsistentX c5w := by
  constructor
  · intro a hna p hp
    rw [actorTile_c5w_none] at hp
    exact Option.noConfusion hp
  · intro p a hpa
    exact Option.noConfusion hpa

theorem allInv_c5w : allCatsClaimInvariant c5w := by
  intro c hc
  rw [List.mem_singleton.mp hc]
  exact claimCatInvariant_off _ rfl rfl (le_refl 1)

theorem allWf_c5w : allCatsWf c5w := by
  intro c hc
  rw [List.mem_singleton.mp hc]
  exact ⟨by decide, by decide⟩

theorem c4cex0_reports (a : ActorId) (p : Pos) (h : actorTile c4cex0 a = some p) :
    (a = .cat 0 ∧ p = ⟨0, 2⟩) ∨ (a = .ball 0 ∧ p = ⟨0, 1⟩) := by
  cases a with
  | cat i =>
    cases i with
    | zero =>
      left
      have h2 : some (⟨0, 2⟩ : Pos) = some p := h
      exact ⟨rfl, (Option.some.inj h2).symm⟩
    | succ j => exact Option.noConfusion h
  | contraption i => exact Option.noConfusion h
  | ball i =>
    cases i with
    | zero =>
      right
      have h2 : some (⟨0, 1⟩ : Pos) = some p := h
      exact ⟨rfl, (Option.some.inj h2).symm⟩
    | succ j => exact Option.noConfusion h

theorem consistentX_c4cex0 : ConsistentX c4cex0 := by
  constructor
  · intro a hna p hp
    rcases c4cex0_reports a p hp with ⟨ha, hp2⟩ | ⟨ha, hp2⟩
    · rw [ha, hp2]
      decide
    · exact absurd ⟨0, ha⟩ hna
  · intro p a hpa
    by_cases h1 : p = ⟨0, 1⟩
    · subst h1
      have hocc : c4cex0.occ ⟨0, 1⟩ = some (.ball 0) := by decide
      rw [hocc] at hpa
      rw [← Option.some.inj hpa]
      decide
    · by_cases h2 : p = ⟨0, 2⟩
      · subst h2
        have hocc : c4cex0.occ ⟨0, 2⟩ = some (.cat 0) := by decide
        rw [hocc] at hpa
        rw [← Option.some.inj hpa]
        decide
      · exfalso
        have hocc : c4cex0.occ p = none := by
          show Function.update (Function.update emptyOcc ⟨0, 2⟩ (some (.cat 0)))
            ⟨0, 1⟩ (some (.ball 0)) p = none
          rw [Function.update_noteq h1, Function.update_noteq h2]
          rfl
        rw [hocc] at hpa
        exact Option.noConfusion hpa

theorem noSharedTiles_c4cex0 : noSharedTiles c4cex0 := by
  intro a b p ha hb
  rcases c4cex0_reports a p ha with ⟨ha1, hp1⟩ | ⟨ha1, hp1⟩ <;>
    rcases c4cex0_reports b p hb with ⟨hb1, hp2⟩ | ⟨hb1, hp2⟩
  · rw [ha1, hb1]
  · exact absurd (hp1.symm.trans hp2) (by decide)
  · exact absurd (hp1.symm.trans hp2) (by decide)
  · rw [ha1, hb1]

/-- C4, counterexample: the bidirectional tile-consistency invariant is not
preserved by the obstacle-token pickup: `clear_actor` empties the tile but
never resets the ball's own `_tile` field, so after the pickup the unit and
the picked-up ball both report the pickup tile, refuting "no two Actors
ever report the same occupied tile". -/
theorem c4_counterexample :
    claimActorInvariant c4cex0 ∧
    (catMove c4cex0 0).2 = none ∧
    actorTile (catMove c4cex0 0).1 (.cat 0) = some ⟨0, 1⟩ ∧
    actorTile (catMove c4cex0 0).1 (.ball 0) = some ⟨0, 1⟩ ∧
    ¬ noSharedTiles (catMove c4cex0 0).1 := by
  refine ⟨⟨noSharedTiles_c4cex0, consistentX_c4cex0.2⟩, by decide, by decide, by decide, ?_⟩
  intro hnos
  have h1 := hnos (.ball 0) (.cat 0) ⟨0, 1⟩ (by decide) (by decide)
  exact absurd h1 (by decide)

/-- C4 (amended): a unit's move — including the obstacle-token pickup — and
its full end-of-round preserve the tile-side direction of the invariant
(every occupied tile's occupant reports that exact tile) and the actor-side
direction for every actor except picked-up balls, whose stale position
field survives the pickup. -/
theorem c4_pickup_consistency (s : GState) (ci : Nat) (hC : ConsistentX s) :
    (occupantBacklinks (catMove s ci).1 ∧
      Dir1Except (catMove s ci).1 (fun a => ∃ i, a = ActorId.ball i)) ∧
    (occupantBacklinks (catEndRound s ci).1 ∧
      Dir1Except (catEndRound s ci).1 (fun a => ∃ i, a = ActorId.ball i)) :=
  ⟨⟨(dir_catMove s ci hC).2, (dir_catMove s ci hC).1⟩,
   ⟨(dir_catEndRound s ci hC).2, (dir_catEndRound s ci hC).1⟩⟩

/-- Witness for C4 at a concrete input: the pickup scenario state. -/
theorem c4_pickup_consistency_witness :
    ConsistentX c4cex0 ∧
    (occupantBacklinks (catMove c4cex0 0).1 ∧
      Dir1Except (catMove c4cex0 0).1 (fun a => ∃ i, a = ActorId.ball i)) :=
  ⟨consistentX_c4cex0, (c4_pickup_consistency c4cex0 0 consistentX_c4cex0).1⟩

/-- C5 (amended): for every initial rest time >= 1 each cat constructor
establishes the lifecycle invariant (exactly one of on-board-attentive or
off-board-resting, with restTime == 0 iff on board), and on a live,
tile-consistent state whose units all satisfy the invariant (with positive
per-class attention and rest parameters), a unit's full end-of-round (move,
rest and any distractions it triggers) preserves the invariant for every
unit. -/
theorem c5_rest_lifecycle (k : CatKind) (srt : Int) (s : GState) (ci : Nat)
    (hsrt : 1 ≤ srt) (hdes : s.destroyed = false) (hCX : ConsistentX s)
    (hinv : allCatsClaimInvariant s) (hwf : allCatsWf s) :
    claimCatInvariant (mkCatOfKind k srt) ∧
    allCatsClaimInvariant (catEndRound s ci).1 :=
  ⟨claimCatInvariant_mkCat k srt hsrt,
   (inv_catEndRound s ci hdes ⟨hCX, hinv, hwf⟩).2.1⟩

/-- Witness for C5 at a concrete input: a fresh one-lane game with a single
resting tabby (rest time 1); its end-of-round respawns it at the lane
entrance. -/
theorem c5_rest_lifecycle_witness :
    ((1 : Int) ≤ 1 ∧ c5w.destroyed = false ∧ ConsistentX c5w ∧
      allCatsClaimInvariant c5w ∧ allCatsWf c5w) ∧
    (claimCatInvariant (mkCatOfKind .tabby 1) ∧
      allCatsClaimInvariant (catEndRound c5w 0).1) :=
  ⟨⟨le_refl 1, rfl, consistentX_c5w, allInv_c5w, allWf_c5w⟩,
   c5_rest_lifecycle .tabby 1 c5w 0 (le_refl 1) rfl consistentX_c5w allInv_c5w allWf_c5w⟩

end CatsHomework
